import Mathlib

/-!
# winpad_layout: geometry, maximize rule and keyboard gesture machine

A shallow embedding of `src/main.cpp`.

* `LONG`/`int` values are integers; every C arithmetic operator is followed by
  a reduction into the signed 32-bit range (`wrap32`), so statements that
  assume "no overflow" carry that assumption as an explicit hypothesis.
* C `/` and `%` truncate toward zero: `Int.tdiv` and `Int.tmod`.
* The two function-level statics of `KeybdProc` form the `State`.
* Everything `KeybdProc` reads from the operating system during one call
  (foreground window rectangle, extended frame bounds, show command, work
  area of the nearest monitor) is the `Env` argument.
* Everything it does to the operating system is the returned list of `Cmd`.
-/

namespace WinpadLayout

/-! ## Machine arithmetic -/

/-- Reduction of an integer into the signed 32-bit range (two's complement). -/
def wrap32 (x : Int) : Int := (x + 2147483648) % 4294967296 - 2147483648

/-- C `a + b` on 32-bit signed operands. -/
def add32 (a b : Int) : Int := wrap32 (a + b)

/-- C `a - b` on 32-bit signed operands. -/
def sub32 (a b : Int) : Int := wrap32 (a - b)

/-- C `a * b` on 32-bit signed operands. -/
def mul32 (a b : Int) : Int := wrap32 (a * b)

/-- C `a / b` on 32-bit signed operands (truncation toward zero). -/
def div32 (a b : Int) : Int := wrap32 (Int.tdiv a b)

/-- C `a % b` on 32-bit signed operands (sign of the dividend). -/
def mod32 (a b : Int) : Int := wrap32 (Int.tmod a b)

/-- A value representable as a 32-bit signed integer. -/
def InLong (x : Int) : Prop := -2147483648 ≤ x ∧ x < 2147483648

instance (x : Int) : Decidable (InLong x) := by unfold InLong; infer_instance

/-! ## Data model -/

/-- Win32 `RECT`: four `LONG` fields. -/
structure RECT where
  left : Int
  top : Int
  right : Int
  bottom : Int
deriving DecidableEq, Repr

/-- All four fields of the rectangle are representable `LONG` values. -/
def RECT.InLong (r : RECT) : Prop :=
  WinpadLayout.InLong r.left ∧ WinpadLayout.InLong r.top ∧
  WinpadLayout.InLong r.right ∧ WinpadLayout.InLong r.bottom

instance (r : RECT) : Decidable r.InLong := by unfold RECT.InLong; infer_instance

/-- The arithmetic of `GetQuadrant` on this workspace stays inside the 32-bit
range: the fields are `LONG` values and the largest products, `3 * width` and
`3 * height`, are representable. -/
def NoOverflow (W : RECT) : Prop :=
  W.InLong ∧ InLong (3 * (W.right - W.left)) ∧ InLong (3 * (W.bottom - W.top))

instance (W : RECT) : Decidable (NoOverflow W) := by unfold NoOverflow; infer_instance

/-! ## Constants of the Windows SDK headers used by `main.cpp` -/

/-- Value of `WM_KEYDOWN` in `winuser.h`. -/
def WM_KEYDOWN : Nat := 0x0100
/-- Value of `WM_KEYUP` in `winuser.h`. -/
def WM_KEYUP : Nat := 0x0101
/-- Value of `VK_LCONTROL` in `winuser.h`. -/
def VK_LCONTROL : Nat := 0xA2
/-- Value of `VK_NUMPAD1` in `winuser.h`. -/
def VK_NUMPAD1 : Nat := 0x61
/-- Value of `VK_NUMPAD9` in `winuser.h`. -/
def VK_NUMPAD9 : Nat := 0x69
/-- Value of `SW_SHOWNORMAL` in `winuser.h`. -/
def SW_SHOWNORMAL : Nat := 1
/-- Value of `SW_SHOWMAXIMIZED` in `winuser.h`. -/
def SW_SHOWMAXIMIZED : Nat := 3
/-- Value of `SW_MAXIMIZE` in `winuser.h`. -/
def SW_MAXIMIZE : Nat := 3

/-! ## `GetQuadrant` (main.cpp 17-33) -/

/-- Rectangle of the given quadrant inside the monitor workspace. -/
def GetQuadrant (monitor_rect : RECT) (quadrant : Int) : RECT :=
  let row := sub32 2 (div32 (sub32 quadrant 1) 3)
  let col := mod32 (sub32 quadrant 1) 3
  let width := sub32 monitor_rect.right monitor_rect.left
  let height := sub32 monitor_rect.bottom monitor_rect.top
  { left := add32 monitor_rect.left (div32 (mul32 col width) 3)
    right := add32 monitor_rect.left (div32 (mul32 (add32 col 1) width) 3)
    top := add32 monitor_rect.top (div32 (mul32 row height) 3)
    bottom := add32 monitor_rect.top (div32 (mul32 (add32 row 1) height) 3) }

/-! ## `ShouldBeMaximized` (main.cpp 48-60) -/

/-- Whether the two quadrants give a maximized window. -/
def ShouldBeMaximized (q1 q2 : Int) : Bool :=
  if q1 = 1 ∧ q2 = 9 then true
  else if q1 = 9 ∧ q2 = 1 then true
  else if q1 = 3 ∧ q2 = 7 then true
  else if q1 = 7 ∧ q2 = 3 then true
  else false

/-! ## Operating-system snapshot and window queries -/

/-- What one call of `KeybdProc` can read from the operating system. -/
structure Env where
  /-- Result of `GetWindowRect` on the foreground window. -/
  window_rect : RECT
  /-- Result of `DwmGetWindowAttribute(.., DWMWA_EXTENDED_FRAME_BOUNDS, ..)`. -/
  extended_rect : RECT
  /-- Field `showCmd` filled in by `GetWindowPlacement`. -/
  showCmd : Nat
  /-- Field `rcWork` filled in by `GetMonitorInfo` for the nearest monitor. -/
  rcWork : RECT
deriving DecidableEq, Repr

/-- Function `IsMaximized` (main.cpp 36-44): the show command is "maximized". -/
def IsMaximized (w : Env) : Bool := w.showCmd == SW_SHOWMAXIMIZED

/-- Function `GetWindowBorder` (main.cpp 64-79): window rectangle minus
extended frame bounds, side by side. -/
def GetWindowBorder (w : Env) : RECT :=
  { left := sub32 w.window_rect.left w.extended_rect.left
    top := sub32 w.window_rect.top w.extended_rect.top
    right := sub32 w.window_rect.right w.extended_rect.right
    bottom := sub32 w.window_rect.bottom w.extended_rect.bottom }

/-! ## Window commands -/

/-- The calls by which `KeybdProc` acts on the foreground window. -/
inductive Cmd where
  /-- Call `ShowWindow(active_window, nCmdShow)`. -/
  | ShowWindow (nCmdShow : Nat)
  /-- Call `ShowWindowAsync(active_window, nCmdShow)`. -/
  | ShowWindowAsync (nCmdShow : Nat)
  /-- Call `SetWindowPos(active_window, HWND_TOP, X, Y, cx, cy, SWP_NOSENDCHANGING)`. -/
  | SetWindowPos (X Y cx cy : Int)
deriving DecidableEq, Repr

/-- The command maximizes the window. -/
def Cmd.isMaximize : Cmd → Bool
  | .ShowWindow n => n == SW_MAXIMIZE
  | _ => false

/-- The command restores the window to its normal show state. -/
def Cmd.isRestore : Cmd → Bool
  | .ShowWindowAsync n => n == SW_SHOWNORMAL
  | _ => false

/-- The command moves and resizes the window. -/
def Cmd.isMoveResize : Cmd → Bool
  | .SetWindowPos _ _ _ _ => true
  | _ => false

/-! ## The placement block of `KeybdProc` (main.cpp 132-167) -/

/-- The rectangle `new_rect` of main.cpp 154-158. -/
def newRect (rect1 rect2 border : RECT) : RECT :=
  { left := add32 (min rect1.left rect2.left) border.left
    top := add32 (min rect1.top rect2.top) border.top
    right := add32 (max rect1.right rect2.right) border.right
    bottom := add32 (max rect1.bottom rect2.bottom) border.bottom }

/-- Body of `if (first_quadrant != -1 && quadrant != -1)` up to the state
reset: the window commands issued for the pair of quadrants. -/
def place (w : Env) (first_quadrant quadrant : Int) : List Cmd :=
  let border := GetWindowBorder w
  if ShouldBeMaximized first_quadrant quadrant then
    if !IsMaximized w then [Cmd.ShowWindow SW_MAXIMIZE] else []
  else
    let rect1 := GetQuadrant w.rcWork first_quadrant
    let rect2 := GetQuadrant w.rcWork quadrant
    let new_rect := newRect rect1 rect2 border
    (if IsMaximized w then [Cmd.ShowWindowAsync SW_SHOWNORMAL] else []) ++
      [Cmd.SetWindowPos new_rect.left new_rect.top
        (sub32 new_rect.right new_rect.left) (sub32 new_rect.bottom new_rect.top)]

/-! ## `KeybdProc` (main.cpp 83-175) -/

/-- The statics `ctrl_down` and `first_quadrant`. -/
structure State where
  ctrl_down : Bool
  first_quadrant : Int
deriving DecidableEq, Repr

/-- Values of the statics before the first call. -/
def State.initial : State := { ctrl_down := false, first_quadrant := -1 }

/-- Arguments of one hook call: the hook code, the message identifier and the
virtual-key code read from the `KBDLLHOOKSTRUCT`. -/
structure Event where
  aCode : Int
  wParam : Nat
  vkCode : Nat
deriving DecidableEq, Repr

/-- How the hook procedure returns. -/
inductive HookResult where
  /-- Statement `return 1;`: the event is consumed. -/
  | consumed
  /-- Statement `return CallNextHookEx(0, aCode, wParam, lParam);`: the event is
  forwarded. -/
  | forwarded
deriving DecidableEq, Repr

/-- Result of one call of `KeybdProc`. The field `placement` records the pair
`(first_quadrant, quadrant)` when the placement block was entered. -/
structure Outcome where
  state : State
  result : HookResult
  cmds : List Cmd
  placement : Option (Int × Int)
deriving DecidableEq, Repr

/-- One call of the low-level keyboard callback. -/
def KeybdProc (s : State) (w : Env) (e : Event) : Outcome :=
  if e.aCode < 0 then
    { state := s, result := .forwarded, cmds := [], placement := none }
  else
    let vk := e.vkCode
    -- track the state of the left control key
    let s1 : State :=
      if vk = VK_LCONTROL ∧ e.wParam = WM_KEYDOWN then { s with ctrl_down := true } else s
    let s2 : State :=
      if vk = VK_LCONTROL ∧ e.wParam = WM_KEYUP then
        { ctrl_down := false, first_quadrant := -1 }
      else s1
    -- ignore the ctrl + numpad key down events, but do not forward them
    if e.wParam = WM_KEYDOWN ∧ s2.ctrl_down = true ∧ (VK_NUMPAD1 ≤ vk ∧ vk ≤ VK_NUMPAD9) then
      { state := s2, result := .consumed, cmds := [], placement := none }
    else
      -- has any of the numbers on the numpad been released?
      let quadrant : Int :=
        if e.wParam = WM_KEYUP ∧ s2.ctrl_down = true then
          if VK_NUMPAD1 ≤ vk ∧ vk ≤ VK_NUMPAD9 then (vk : Int) - (VK_NUMPAD1 : Int) + 1 else -1
        else -1
      if s2.first_quadrant = -1 ∧ quadrant ≠ -1 then
        -- remember the first quadrant and wait for the second one
        { state := { s2 with first_quadrant := quadrant }, result := .consumed,
          cmds := [], placement := none }
      else if s2.first_quadrant ≠ -1 ∧ quadrant ≠ -1 then
        -- place the window, then reset the state to wait for the next events
        { state := { s2 with first_quadrant := -1 }, result := .consumed,
          cmds := place w s2.first_quadrant quadrant,
          placement := some (s2.first_quadrant, quadrant) }
      else
        { state := s2, result := .forwarded, cmds := [], placement := none }

/-- Feed a sequence of hook calls, each with its own operating-system
snapshot, and collect the outcomes in order. -/
def runKeybd : State → List (Env × Event) → List Outcome
  | _, [] => []
  | s, (w, e) :: rest =>
    let o := KeybdProc s w e
    o :: runKeybd o.state rest

/-- State of the statics after a sequence of hook calls. -/
def finalState : State → List (Env × Event) → State
  | s, [] => s
  | s, (w, e) :: rest => finalState (KeybdProc s w e).state rest

/-- The placements made during a run, in order. -/
def placements (os : List Outcome) : List (Int × Int) :=
  os.filterMap (fun o => o.placement)

/-- All window commands issued during a run, in order. -/
def allCmds (os : List Outcome) : List Cmd :=
  (os.map (fun o => o.cmds)).flatten

/-- A key event delivered with hook code `HC_ACTION` (0). -/
def keyEvent (wParam vk : Nat) : Event := { aCode := 0, wParam := wParam, vkCode := vk }

/-- Virtual-key code of the numpad digit `d` (1..9). -/
def numpad (d : Nat) : Nat := VK_NUMPAD1 + (d - 1)

/-- The point `(x, y)` lies in the half-open rectangle `r`. -/
def RECT.contains (r : RECT) (x y : Int) : Prop :=
  (r.left ≤ x ∧ x < r.right) ∧ (r.top ≤ y ∧ y < r.bottom)

instance (r : RECT) (x y : Int) : Decidable (r.contains x y) := by
  unfold RECT.contains; infer_instance

/-- Pair each event of a sequence with the operating-system snapshot seen by
its hook call; `w i` is the snapshot at call number `i`. -/
def snapshots (w : Nat → Env) : Nat → List Event → List (Env × Event)
  | _, [] => []
  | i, e :: es => (w i, e) :: snapshots w (i + 1) es

/-! ## Event sequences of the spec's gestures -/

/-- The six events of the gesture "control, 3, 7". -/
def gesture37 : List Event :=
  [keyEvent WM_KEYDOWN VK_LCONTROL,
   keyEvent WM_KEYDOWN (numpad 3), keyEvent WM_KEYUP (numpad 3),
   keyEvent WM_KEYDOWN (numpad 7), keyEvent WM_KEYUP (numpad 7),
   keyEvent WM_KEYUP VK_LCONTROL]

/-- The abandoned gesture "control, 1, release control". -/
def gestureAbandoned : List Event :=
  [keyEvent WM_KEYDOWN VK_LCONTROL,
   keyEvent WM_KEYDOWN (numpad 1), keyEvent WM_KEYUP (numpad 1),
   keyEvent WM_KEYUP VK_LCONTROL]

/-- The gesture "control, 5, 2" with the control key still held at the end. -/
def gesture52 : List Event :=
  [keyEvent WM_KEYDOWN VK_LCONTROL,
   keyEvent WM_KEYDOWN (numpad 5), keyEvent WM_KEYUP (numpad 5),
   keyEvent WM_KEYDOWN (numpad 2), keyEvent WM_KEYUP (numpad 2)]

/-- The min/max part of main.cpp 155-158: the bounding box of two rectangles
(componentwise minimum of lefts and tops, maximum of rights and bottoms). -/
def unionRect (rect1 rect2 : RECT) : RECT :=
  { left := min rect1.left rect2.left
    top := min rect1.top rect2.top
    right := max rect1.right rect2.right
    bottom := max rect1.bottom rect2.bottom }

/-- Rectangle `r` contains rectangle `a`: every edge of `a` is inside `r`. -/
def RECT.encloses (r a : RECT) : Prop :=
  r.left ≤ a.left ∧ r.top ≤ a.top ∧ a.right ≤ r.right ∧ a.bottom ≤ r.bottom

instance (r a : RECT) : Decidable (r.encloses a) := by
  unfold RECT.encloses; infer_instance

/-- The event is a key-up of one of the keys numpad 1..9. -/
def isNumpadKeyUp (e : Event) : Bool :=
  decide (e.wParam = WM_KEYUP ∧ VK_NUMPAD1 ≤ e.vkCode ∧ e.vkCode ≤ VK_NUMPAD9)

/-- The quadrant `vk - VK_NUMPAD1 + 1` selected by a numpad key (main.cpp 119). -/
def quadrantOf (e : Event) : Int := (e.vkCode : Int) - (VK_NUMPAD1 : Int) + 1

/-- The quadrants of the numpad 1..9 key-ups of an event sequence, in order. -/
def keyUpDigits (evs : List (Env × Event)) : List Int :=
  (evs.filter (fun p => isNumpadKeyUp p.2)).map (fun p => quadrantOf p.2)

/-- Consecutive elements taken two by two: `[d1, d2, d3, d4, d5]` gives
`[(d1, d2), (d3, d4)]`. -/
def pairUp : List Int → List (Int × Int)
  | a :: b :: rest => (a, b) :: pairUp rest
  | _ => []

/-- The element left over by `pairUp`: the last one when the length is odd,
`-1` (no pending quadrant) when it is even. -/
def leftOver : List Int → Int
  | [] => -1
  | [a] => a
  | _ :: _ :: rest => leftOver rest

/-- With the control key held, the statics hold either no pending quadrant or
one in 1..9; without it, none. -/
def State.Reachable (s : State) : Prop :=
  (s.first_quadrant = -1 ∨ (1 ≤ s.first_quadrant ∧ s.first_quadrant ≤ 9)) ∧
  (s.first_quadrant ≠ -1 → s.ctrl_down = true)

instance (s : State) : Decidable s.Reachable := by
  unfold State.Reachable; infer_instance

/-- The pending quadrant of the statics as a list: empty when there is none. -/
def State.pending (s : State) : List Int :=
  if s.first_quadrant = -1 then [] else [s.first_quadrant]

/-- A run with the control key already held: 5 down and up, a letter key, 2 down
and up, a repeated control key-down, then 8 up. -/
def gestureInterleaved : List Event :=
  [keyEvent WM_KEYDOWN (numpad 5), keyEvent WM_KEYUP (numpad 5),
   keyEvent WM_KEYDOWN 0x41,
   keyEvent WM_KEYDOWN (numpad 2), keyEvent WM_KEYUP (numpad 2),
   keyEvent WM_KEYDOWN VK_LCONTROL,
   keyEvent WM_KEYUP (numpad 8)]

/-- A fixed operating-system snapshot: a normal window on the work area
(0,0,1200,900). -/
def sampleEnv : Env :=
  { window_rect := ⟨100, 100, 500, 400⟩
    extended_rect := ⟨107, 100, 493, 393⟩
    showCmd := SW_SHOWNORMAL
    rcWork := ⟨0, 0, 1200, 900⟩ }

/-! ## Machine arithmetic without overflow -/

theorem wrap32_eq_self {x : Int} (h : InLong x) : wrap32 x = x := by
  unfold InLong at h
  unfold wrap32
  omega

/-- Machine addition is exact when the sum is representable. -/
theorem add32_eq {a b : Int} (h : InLong (a + b)) : add32 a b = a + b :=
  wrap32_eq_self h

/-- Machine subtraction is exact when the difference is representable. -/
theorem sub32_eq {a b : Int} (h : InLong (a - b)) : sub32 a b = a - b :=
  wrap32_eq_self h

/-- Machine multiplication is exact when the product is representable. -/
theorem mul32_eq {a b : Int} (h : InLong (a * b)) : mul32 a b = a * b :=
  wrap32_eq_self h

/-- Machine division by 3 of a non-negative value is the floor division. -/
theorem div32_three {a : Int} (h0 : 0 ≤ a) (h : InLong a) : div32 a 3 = a / 3 := by
  unfold div32
  rw [Int.tdiv_eq_ediv h0 (by decide)]
  apply wrap32_eq_self
  unfold InLong at *
  omega

/-- Machine remainder by 3 of a non-negative value is the usual remainder. -/
theorem mod32_three {a : Int} (h0 : 0 ≤ a) : mod32 a 3 = a % 3 := by
  unfold mod32
  rw [Int.tmod_eq_emod h0 (by decide)]
  apply wrap32_eq_self
  unfold InLong
  omega

/-- One grid line: origin plus `k` thirds of the extent, for `k` in 0..3. -/
theorem gridLine_eq (o len k : Int) (hk0 : 0 ≤ k) (hk3 : k ≤ 3) (hlen : 0 ≤ len)
    (h3 : InLong (3 * len)) (ho : InLong o) (hol : InLong (o + len)) :
    add32 o (div32 (mul32 k len) 3) = o + k * len / 3 := by
  unfold InLong at h3 ho hol
  have hm : mul32 k len = k * len := by
    apply mul32_eq
    unfold InLong
    interval_cases k <;> omega
  have hk : 0 ≤ k * len := Int.mul_nonneg hk0 hlen
  have hkl : k * len ≤ 3 * len := by interval_cases k <;> omega
  have hd : div32 (k * len) 3 = k * len / 3 := by
    apply div32_three hk
    unfold InLong
    omega
  rw [hm, hd]
  apply add32_eq
  unfold InLong
  omega

/-- Without overflow, and for a quadrant in 1..9 of a workspace of non-negative
extent, `GetQuadrant` computes the exact integer grid lines. -/
theorem GetQuadrant_eq (W : RECT) (q : Int) (hq1 : 1 ≤ q) (hq9 : q ≤ 9)
    (hno : NoOverflow W) (hw : 0 ≤ W.right - W.left) (hh : 0 ≤ W.bottom - W.top) :
    GetQuadrant W q =
      { left := W.left + (q - 1) % 3 * (W.right - W.left) / 3
        right := W.left + ((q - 1) % 3 + 1) * (W.right - W.left) / 3
        top := W.top + (2 - (q - 1) / 3) * (W.bottom - W.top) / 3
        bottom := W.top + (2 - (q - 1) / 3 + 1) * (W.bottom - W.top) / 3 } := by
  obtain ⟨⟨hl, ht, hr, hb⟩, hW, hH⟩ := hno
  have hs : sub32 q 1 = q - 1 := sub32_eq (by unfold InLong; omega)
  have hd : div32 (q - 1) 3 = (q - 1) / 3 :=
    div32_three (by omega) (by unfold InLong; omega)
  have hrow : sub32 2 ((q - 1) / 3) = 2 - (q - 1) / 3 :=
    sub32_eq (by unfold InLong; omega)
  have hcol : mod32 (q - 1) 3 = (q - 1) % 3 := mod32_three (by omega)
  have hcol1 : add32 ((q - 1) % 3) 1 = (q - 1) % 3 + 1 :=
    add32_eq (by unfold InLong; omega)
  have hrow1 : add32 (2 - (q - 1) / 3) 1 = 2 - (q - 1) / 3 + 1 :=
    add32_eq (by unfold InLong; omega)
  have hwd : sub32 W.right W.left = W.right - W.left :=
    sub32_eq (by unfold InLong at *; omega)
  have hhd : sub32 W.bottom W.top = W.bottom - W.top :=
    sub32_eq (by unfold InLong at *; omega)
  have hr2 : InLong (W.left + (W.right - W.left)) := by unfold InLong at *; omega
  have hb2 : InLong (W.top + (W.bottom - W.top)) := by unfold InLong at *; omega
  unfold GetQuadrant
  simp only [hs, hd, hrow, hcol, hcol1, hrow1, hwd, hhd]
  rw [gridLine_eq W.left _ ((q - 1) % 3) (by omega) (by omega) hw hW hl hr2,
    gridLine_eq W.left _ ((q - 1) % 3 + 1) (by omega) (by omega) hw hW hl hr2,
    gridLine_eq W.top _ (2 - (q - 1) / 3) (by omega) (by omega) hh hH ht hb2,
    gridLine_eq W.top _ (2 - (q - 1) / 3 + 1) (by omega) (by omega) hh hH ht hb2]

/-! ## Thirds of an extent -/

/-- Every point of an extent lies in one of its three thirds. -/
theorem thirds_exists (o len x : Int) (hx : o ≤ x ∧ x < o + len) :
    ∃ c : Int, (0 ≤ c ∧ c ≤ 2) ∧ o + c * len / 3 ≤ x ∧ x < o + (c + 1) * len / 3 := by
  by_cases h1 : x < o + 1 * len / 3
  · exact ⟨0, by omega, by omega, by omega⟩
  · by_cases h2 : x < o + 2 * len / 3
    · exact ⟨1, by omega, by omega, by omega⟩
    · exact ⟨2, by omega, by omega, by omega⟩

/-- The three thirds of an extent do not overlap. -/
theorem thirds_unique (o len x c d : Int) (hc : 0 ≤ c ∧ c ≤ 2) (hd : 0 ≤ d ∧ d ≤ 2)
    (h : o + c * len / 3 ≤ x ∧ x < o + (c + 1) * len / 3)
    (k : o + d * len / 3 ≤ x ∧ x < o + (d + 1) * len / 3) : c = d := by
  obtain ⟨hc0, hc2⟩ := hc
  obtain ⟨hd0, hd2⟩ := hd
  interval_cases c <;> interval_cases d <;> omega

/-! ## Single steps of the gesture machine -/

theorem KeybdProc_second_keyup (s : State) (w : Env) (e : Event) (hcode : 0 ≤ e.aCode)
    (hup : e.wParam = WM_KEYUP) (hlo : VK_NUMPAD1 ≤ e.vkCode) (hhi : e.vkCode ≤ VK_NUMPAD9)
    (hctrl : s.ctrl_down = true) (hq : s.first_quadrant ≠ -1) :
    KeybdProc s w e =
      { state := { ctrl_down := true, first_quadrant := -1 }
        result := .consumed
        cmds := place w s.first_quadrant ((e.vkCode : Int) - (VK_NUMPAD1 : Int) + 1)
        placement := some (s.first_quadrant, (e.vkCode : Int) - (VK_NUMPAD1 : Int) + 1) } := by
  have hnl : e.vkCode ≠ VK_LCONTROL := by
    unfold VK_NUMPAD9 at hhi
    unfold VK_LCONTROL
    omega
  have hq2 : (e.vkCode : Int) - (VK_NUMPAD1 : Int) + 1 ≠ -1 := by
    unfold VK_NUMPAD1 at hlo ⊢
    omega
  have hkd : WM_KEYUP ≠ WM_KEYDOWN := by decide
  unfold KeybdProc
  simp [hup, hlo, hhi, hctrl, hq, hnl, hq2, hkd, Int.not_lt.mpr hcode]

/-- A numpad key-up with the control key held and no quadrant pending records
the quadrant and is consumed. -/
theorem KeybdProc_first_keyup (s : State) (w : Env) (e : Event) (hcode : 0 ≤ e.aCode)
    (hup : e.wParam = WM_KEYUP) (hlo : VK_NUMPAD1 ≤ e.vkCode) (hhi : e.vkCode ≤ VK_NUMPAD9)
    (hctrl : s.ctrl_down = true) (hq : s.first_quadrant = -1) :
    KeybdProc s w e =
      { state := { ctrl_down := true
                   first_quadrant := (e.vkCode : Int) - (VK_NUMPAD1 : Int) + 1 }
        result := .consumed
        cmds := []
        placement := none } := by
  have hnl : e.vkCode ≠ VK_LCONTROL := by
    unfold VK_NUMPAD9 at hhi
    unfold VK_LCONTROL
    omega
  have hq2 : (e.vkCode : Int) - (VK_NUMPAD1 : Int) + 1 ≠ -1 := by
    unfold VK_NUMPAD1 at hlo ⊢
    omega
  have hkd : WM_KEYUP ≠ WM_KEYDOWN := by decide
  unfold KeybdProc
  simp [hup, hlo, hhi, hctrl, hq, hnl, hq2, hkd, Int.not_lt.mpr hcode]

/-- The rectangle `new_rect` is the bounding box of the two rectangles with the
border added to each edge. -/
theorem newRect_eq_unionRect (rect1 rect2 border : RECT) :
    newRect rect1 rect2 border =
      { left := add32 (unionRect rect1 rect2).left border.left
        top := add32 (unionRect rect1 rect2).top border.top
        right := add32 (unionRect rect1 rect2).right border.right
        bottom := add32 (unionRect rect1 rect2).bottom border.bottom } := rfl

/-- The reduction always yields a representable value. -/
theorem wrap32_inLong (x : Int) : InLong (wrap32 x) := by
  unfold InLong wrap32
  omega

/-- A call with a negative hook code is passed on untouched (main.cpp 89-90). -/
theorem KeybdProc_neg_code (s : State) (w : Env) (e : Event) (h : e.aCode < 0) :
    KeybdProc s w e = { state := s, result := .forwarded, cmds := [], placement := none } := by
  unfold KeybdProc
  simp [h]

/-- An event of the left control key only updates the statics and is forwarded. -/
theorem KeybdProc_lcontrol (s : State) (w : Env) (e : Event) (hcode : 0 ≤ e.aCode)
    (hvk : e.vkCode = VK_LCONTROL) :
    KeybdProc s w e =
      { state :=
          if e.wParam = WM_KEYUP then { ctrl_down := false, first_quadrant := -1 }
          else if e.wParam = WM_KEYDOWN then { s with ctrl_down := true }
          else s
        result := .forwarded
        cmds := []
        placement := none } := by
  have hn : ¬ (VK_NUMPAD1 ≤ VK_LCONTROL ∧ VK_LCONTROL ≤ VK_NUMPAD9) := by decide
  have hkd : WM_KEYUP ≠ WM_KEYDOWN := by decide
  unfold KeybdProc
  by_cases hu : e.wParam = WM_KEYUP
  · simp [hvk, hu, hn, hkd, Int.not_lt.mpr hcode]
  · by_cases hd : e.wParam = WM_KEYDOWN
    · simp [hvk, hu, hd, hn, Int.not_lt.mpr hcode]
    · simp [hvk, hu, hd, hn, Int.not_lt.mpr hcode]

/-- With the control key not held, every other key is forwarded unchanged. -/
theorem KeybdProc_idle (s : State) (w : Env) (e : Event) (hnl : e.vkCode ≠ VK_LCONTROL)
    (hctrl : s.ctrl_down = false) :
    KeybdProc s w e = { state := s, result := .forwarded, cmds := [], placement := none } := by
  unfold KeybdProc
  by_cases hc : e.aCode < 0
  · simp [hc]
  · simp [hc, hnl, hctrl]

/-- An event that is neither of the control key nor a numpad key-up changes no
static and places nothing. -/
theorem KeybdProc_no_keyup (s : State) (w : Env) (e : Event) (hnl : e.vkCode ≠ VK_LCONTROL)
    (hk : isNumpadKeyUp e = false) :
    (KeybdProc s w e).state = s ∧ (KeybdProc s w e).placement = none ∧
    (KeybdProc s w e).cmds = [] := by
  unfold isNumpadKeyUp at hk
  simp only [decide_eq_false_iff_not] at hk
  unfold KeybdProc
  by_cases hc : e.aCode < 0
  · simp [hc]
  · by_cases hu : e.wParam = WM_KEYUP
    · have hr : ¬ (VK_NUMPAD1 ≤ e.vkCode ∧ e.vkCode ≤ VK_NUMPAD9) := fun h => hk ⟨hu, h⟩
      have hkd : WM_KEYUP ≠ WM_KEYDOWN := by decide
      simp [hc, hnl, hu, hr, hkd]
    · by_cases hd : e.wParam = WM_KEYDOWN
      · have hdu : WM_KEYDOWN ≠ WM_KEYUP := by decide
        by_cases hh : s.ctrl_down = true ∧ (VK_NUMPAD1 ≤ e.vkCode ∧ e.vkCode ≤ VK_NUMPAD9)
        · simp [hc, hnl, hd, hh, hdu]
        · simp [hc, hnl, hd, hh, hdu]
      · simp [hc, hnl, hu, hd]

/-- The quadrant selected by a numpad 1..9 key-up lies in 1..9. -/
theorem quadrantOf_range (e : Event) (hk : isNumpadKeyUp e = true) :
    1 ≤ quadrantOf e ∧ quadrantOf e ≤ 9 := by
  unfold isNumpadKeyUp at hk
  simp only [decide_eq_true_eq] at hk
  unfold quadrantOf
  obtain ⟨_, hlo, hhi⟩ := hk
  unfold VK_NUMPAD1 at hlo ⊢
  unfold VK_NUMPAD9 at hhi
  omega

/-- One call of `KeybdProc` keeps the statics in the reachable shape, and a
placement it makes is for two quadrants in 1..9. -/
theorem KeybdProc_reachable (s : State) (w : Env) (e : Event) (hs : s.Reachable) :
    (KeybdProc s w e).state.Reachable ∧
    ∀ p, (KeybdProc s w e).placement = some p →
      (1 ≤ p.1 ∧ p.1 ≤ 9) ∧ (1 ≤ p.2 ∧ p.2 ≤ 9) := by
  by_cases hc : e.aCode < 0
  · rw [KeybdProc_neg_code s w e hc]
    exact ⟨hs, by simp⟩
  have hcode : 0 ≤ e.aCode := Int.not_lt.mp hc
  by_cases hl : e.vkCode = VK_LCONTROL
  · rw [KeybdProc_lcontrol s w e hcode hl]
    refine ⟨?_, by simp⟩
    obtain ⟨h1, h2⟩ := hs
    simp only [State.Reachable]
    split_ifs
    · simp
    · exact ⟨h1, by simp⟩
    · exact ⟨h1, h2⟩
  by_cases hk : isNumpadKeyUp e = true
  · cases hctrl : s.ctrl_down
    · rw [KeybdProc_idle s w e hl hctrl]
      exact ⟨hs, by simp⟩
    · have hq := quadrantOf_range e hk
      unfold isNumpadKeyUp at hk
      simp only [decide_eq_true_eq] at hk
      obtain ⟨hup, hlo, hhi⟩ := hk
      by_cases hf : s.first_quadrant = -1
      · rw [KeybdProc_first_keyup s w e hcode hup hlo hhi hctrl hf]
        refine ⟨?_, by simp⟩
        simp only [State.Reachable]
        exact ⟨Or.inr hq, by simp⟩
      · rw [KeybdProc_second_keyup s w e hcode hup hlo hhi hctrl hf]
        refine ⟨by simp [State.Reachable], ?_⟩
        intro p hp
        simp only [Option.some.injEq] at hp
        subst hp
        refine ⟨?_, hq⟩
        rcases hs.1 with h | h
        · exact absurd h hf
        · exact h
  · have h := KeybdProc_no_keyup s w e hl (by simpa using hk)
    rw [h.1, h.2.1]
    exact ⟨hs, by simp⟩

/-- Every quadrant 1..9 of the all-zero work area is the all-zero rectangle. -/
theorem GetQuadrant_zero (q : Int) (hq1 : 1 ≤ q) (hq9 : q ≤ 9) :
    GetQuadrant ⟨0, 0, 0, 0⟩ q = ⟨0, 0, 0, 0⟩ := by
  rw [GetQuadrant_eq ⟨0, 0, 0, 0⟩ q hq1 hq9 (by decide) (by decide) (by decide)]
  simp

/-- Truncating division by 3 between the two multiples of 3 around the dividend. -/
theorem tdiv_three_bounds (m : Int) :
    3 * Int.tdiv m 3 - 2 ≤ m ∧ m ≤ 3 * Int.tdiv m 3 + 2 := by
  rcases Int.le_total 0 m with h | h
  · rw [Int.tdiv_eq_ediv h (by decide)]
    omega
  · have hn : Int.tdiv m 3 = -((-m) / 3) := by
      rw [← Int.tdiv_eq_ediv (by omega) (by decide), Int.neg_tdiv, Int.neg_neg]
    rw [hn]
    omega

/-- In the wrapping model the expression `left + 3 * width / 3` never ends 1 or 2
below `right`, whatever the operands. -/
theorem last_line_no_gap (o r : Int) :
    add32 o (div32 (mul32 3 (sub32 r o)) 3) ≠ r - 1 ∧
    add32 o (div32 (mul32 3 (sub32 r o)) 3) ≠ r - 2 := by
  unfold add32 div32 mul32 sub32
  have hb := tdiv_three_bounds (wrap32 (3 * wrap32 (r - o)))
  generalize Int.tdiv (wrap32 (3 * wrap32 (r - o))) 3 = d at hb ⊢
  unfold wrap32 at hb ⊢
  omega

/-- Without overflow the expression `left + 3 * width / 3` is `right`. -/
theorem last_line_exact (o r : Int) (hr : InLong r)
    (h3 : InLong (3 * (r - o))) : add32 o (div32 (mul32 3 (sub32 r o)) 3) = r := by
  unfold InLong at hr h3
  have hs : sub32 r o = r - o := sub32_eq (by unfold InLong; omega)
  have hm : mul32 3 (r - o) = 3 * (r - o) := mul32_eq (by unfold InLong; omega)
  have hd : div32 (3 * (r - o)) 3 = r - o := by
    unfold div32
    rw [Int.mul_tdiv_cancel_left _ (by decide)]
    exact wrap32_eq_self (by unfold InLong; omega)
  rw [hs, hm, hd]
  unfold add32
  rw [show o + (r - o) = r by omega]
  exact wrap32_eq_self (by unfold InLong; omega)

/-- The right edge of a quadrant of the right column, as `GetQuadrant` computes it. -/
theorem GetQuadrant_right_column (W : RECT) (q : Int) (hq : q = 3 ∨ q = 6 ∨ q = 9) :
    (GetQuadrant W q).right =
      add32 W.left (div32 (mul32 3 (sub32 W.right W.left)) 3) := by
  have h3 : add32 (mod32 (sub32 3 1) 3) 1 = 3 := by decide
  have h6 : add32 (mod32 (sub32 6 1) 3) 1 = 3 := by decide
  have h9 : add32 (mod32 (sub32 9 1) 3) 1 = 3 := by decide
  rcases hq with h | h | h <;> subst h <;> simp only [GetQuadrant, h3, h6, h9]

/-- The bottom edge of a quadrant of the bottom row, as `GetQuadrant` computes it. -/
theorem GetQuadrant_bottom_row (W : RECT) (q : Int) (hq : q = 1 ∨ q = 2 ∨ q = 3) :
    (GetQuadrant W q).bottom =
      add32 W.top (div32 (mul32 3 (sub32 W.bottom W.top)) 3) := by
  have h1 : add32 (sub32 2 (div32 (sub32 1 1) 3)) 1 = 3 := by decide
  have h2 : add32 (sub32 2 (div32 (sub32 2 1) 3)) 1 = 3 := by decide
  have h3 : add32 (sub32 2 (div32 (sub32 3 1) 3)) 1 = 3 := by decide
  rcases hq with h | h | h <;> subst h <;> simp only [GetQuadrant, h1, h2, h3]

/-- The pairs on which `ShouldBeMaximized` is true. -/
theorem ShouldBeMaximized_true_iff (q1 q2 : Int) :
    ShouldBeMaximized q1 q2 = true ↔
      (q1 = 1 ∧ q2 = 9) ∨ (q1 = 9 ∧ q2 = 1) ∨ (q1 = 3 ∧ q2 = 7) ∨ (q1 = 7 ∧ q2 = 3) := by
  unfold ShouldBeMaximized
  split_ifs <;> simp_all

/-- Two thirds `c` and `d` of an extent of length at least 3 reach both of its
ends exactly when one is the first third and the other the last. -/
theorem thirds_span (o len c d : Int) (hc : 0 ≤ c ∧ c ≤ 2) (hd : 0 ≤ d ∧ d ≤ 2)
    (hlen : 3 ≤ len) :
    (min (o + c * len / 3) (o + d * len / 3) = o ∧
      max (o + (c + 1) * len / 3) (o + (d + 1) * len / 3) = o + len) ↔
    ((c = 0 ∧ d = 2) ∨ (c = 2 ∧ d = 0)) := by
  obtain ⟨hc0, hc2⟩ := hc
  obtain ⟨hd0, hd2⟩ := hd
  interval_cases c <;> interval_cases d <;> omega

/-- Pairing `k` elements gives `k / 2` pairs. -/
theorem pairUp_length (ds : List Int) : (pairUp ds).length = ds.length / 2 := by
  induction ds using pairUp.induct with
  | case1 a b rest ih =>
    simp only [pairUp, List.length_cons, ih]
    omega
  | case2 ds h =>
    match ds, h with
    | [], _ => rfl
    | [_], _ => simp [pairUp]
    | a :: b :: rest, h => exact absurd rfl (h a b rest)

/-- Pair number `i` is made of elements `2 * i` and `2 * i + 1`. -/
theorem pairUp_getElem (ds : List Int) :
    ∀ (i : Nat) (a b : Int), ds[2 * i]? = some a → ds[2 * i + 1]? = some b →
      (pairUp ds)[i]? = some (a, b) := by
  induction ds using pairUp.induct with
  | case1 x y rest ih =>
    intro i a b ha hb
    cases i with
    | zero =>
      simp only [Nat.mul_zero, List.getElem?_cons_zero, Option.some.injEq] at ha
      simp only [Nat.mul_zero, Nat.zero_add, List.getElem?_cons_succ, List.getElem?_cons_zero,
        Option.some.injEq] at hb
      simp [pairUp, ha, hb]
    | succ j =>
      have e1 : 2 * (j + 1) = (2 * j + 1) + 1 := by omega
      have e2 : 2 * (j + 1) + 1 = ((2 * j + 1) + 1) + 1 := by omega
      rw [e1, List.getElem?_cons_succ, List.getElem?_cons_succ] at ha
      rw [e2, List.getElem?_cons_succ, List.getElem?_cons_succ] at hb
      simp only [pairUp, List.getElem?_cons_succ]
      exact ih j a b ha hb
  | case2 ds h =>
    intro i a b ha hb
    match ds, h with
    | [], _ => simp at ha
    | [_], _ => simp at hb
    | a :: b :: rest, h => exact absurd rfl (h a b rest)

/-- Nothing is left over from an even number of elements. -/
theorem leftOver_even (ds : List Int) : ds.length % 2 = 0 → leftOver ds = -1 := by
  induction ds using leftOver.induct with
  | case1 => intro _; rfl
  | case2 a => intro h; simp at h
  | case3 a b rest ih =>
    intro h
    simp only [leftOver]
    apply ih
    simp only [List.length_cons] at h
    omega

/-- The last element is left over from an odd number of elements. -/
theorem leftOver_odd (ds : List Int) :
    ds.length % 2 = 1 → some (leftOver ds) = ds.getLast? := by
  induction ds using leftOver.induct with
  | case1 => intro h; simp at h
  | case2 a => intro _; rfl
  | case3 a b rest ih =>
    intro h
    simp only [List.length_cons] at h
    have hr : rest.length % 2 = 1 := by omega
    have hne : rest ≠ [] := by
      intro h0
      rw [h0] at hr
      simp at hr
    simp only [leftOver]
    rw [ih hr]
    obtain ⟨c, tl, rfl⟩ := List.exists_cons_of_ne_nil hne
    simp [List.getLast?_cons_cons]

/-- With the control key held, an event that is neither its release nor a
numpad key-up changes no static and places nothing. -/
theorem KeybdProc_held_other (s : State) (w : Env) (e : Event) (hcode : 0 ≤ e.aCode)
    (hctrl : s.ctrl_down = true)
    (hmod : ¬ (e.vkCode = VK_LCONTROL ∧ e.wParam = WM_KEYUP))
    (hk : isNumpadKeyUp e = false) :
    (KeybdProc s w e).state = s ∧ (KeybdProc s w e).placement = none ∧
    (KeybdProc s w e).cmds = [] := by
  by_cases hl : e.vkCode = VK_LCONTROL
  · have hu : ¬ e.wParam = WM_KEYUP := fun h => hmod ⟨hl, h⟩
    rw [KeybdProc_lcontrol s w e hcode hl]
    simp only [hu, if_false]
    refine ⟨?_, trivial, trivial⟩
    split_ifs
    · cases s
      simp only at hctrl
      simp [hctrl]
    · rfl
  · exact KeybdProc_no_keyup s w e hl hk

/-- With the control key held and no release of it, the placements of a run are
the numpad key-ups taken two by two, starting with the pending quadrant. -/
theorem runKeybd_pairing (evs : List (Env × Event)) :
    ∀ s : State, s.ctrl_down = true →
      (∀ p ∈ evs, 0 ≤ p.2.aCode) →
      (∀ p ∈ evs, ¬ (p.2.vkCode = VK_LCONTROL ∧ p.2.wParam = WM_KEYUP)) →
      placements (runKeybd s evs) = pairUp (s.pending ++ keyUpDigits evs) ∧
      (finalState s evs).first_quadrant = leftOver (s.pending ++ keyUpDigits evs) ∧
      (∀ p o, (p, o) ∈ evs.zip (runKeybd s evs) → isNumpadKeyUp p.2 = true →
        o.result = .consumed) := by
  induction evs with
  | nil =>
    intro s _ _ _
    refine ⟨?_, ?_, ?_⟩
    · unfold State.pending
      split_ifs <;> simp [placements, runKeybd, keyUpDigits, pairUp]
    · unfold State.pending
      split_ifs with h <;> simp [finalState, keyUpDigits, leftOver, h]
    · intro p o h
      simp [runKeybd] at h
  | cons hd rest ih =>
    obtain ⟨w, e⟩ := hd
    intro s hctrl hcode hmod
    have hcode0 : 0 ≤ e.aCode := hcode (w, e) (List.mem_cons_self _ _)
    have hmod0 := hmod (w, e) (List.mem_cons_self _ _)
    have hcodeR : ∀ p ∈ rest, 0 ≤ p.2.aCode := fun p hp => hcode p (List.mem_cons_of_mem _ hp)
    have hmodR : ∀ p ∈ rest, ¬ (p.2.vkCode = VK_LCONTROL ∧ p.2.wParam = WM_KEYUP) :=
      fun p hp => hmod p (List.mem_cons_of_mem _ hp)
    cases hk : isNumpadKeyUp e
    · -- not a numpad key-up: nothing changes
      obtain ⟨hst, hpl, _⟩ := KeybdProc_held_other s w e hcode0 hctrl hmod0 hk
      obtain ⟨ih1, ih2, ih3⟩ := ih s hctrl hcodeR hmodR
      have hkd : keyUpDigits ((w, e) :: rest) = keyUpDigits rest := by
        simp [keyUpDigits, List.filter_cons, hk]
      refine ⟨?_, ?_, ?_⟩
      · simp only [runKeybd, placements, List.filterMap_cons, hpl, hst, hkd]
        exact ih1
      · simp only [finalState, hst, hkd]
        exact ih2
      · intro p o hpo hp
        simp only [runKeybd, List.zip_cons_cons, List.mem_cons, Prod.mk.injEq] at hpo
        rcases hpo with ⟨rfl, _⟩ | hpo
        · simp [hk] at hp
        · rw [hst] at hpo
          exact ih3 p o hpo hp
    · -- a numpad key-up
      have hq := quadrantOf_range e hk
      have hkd : keyUpDigits ((w, e) :: rest) = quadrantOf e :: keyUpDigits rest := by
        simp [keyUpDigits, List.filter_cons, hk]
      have hk2 := hk
      unfold isNumpadKeyUp at hk2
      simp only [decide_eq_true_eq] at hk2
      obtain ⟨hup, hlo, hhi⟩ := hk2
      by_cases hf : s.first_quadrant = -1
      · have hstep := KeybdProc_first_keyup s w e hcode0 hup hlo hhi hctrl hf
        have hpend : (⟨true, quadrantOf e⟩ : State).pending = [quadrantOf e] := by
          unfold State.pending
          have : quadrantOf e ≠ -1 := by omega
          simp [this]
        obtain ⟨ih1, ih2, ih3⟩ := ih ⟨true, quadrantOf e⟩ rfl hcodeR hmodR
        rw [hpend] at ih1 ih2
        have hps : s.pending = [] := by simp [State.pending, hf]
        refine ⟨?_, ?_, ?_⟩
        · simp only [runKeybd, placements, List.filterMap_cons, hstep, hkd, hps, List.nil_append]
          exact ih1
        · simp only [finalState, hstep, hkd, hps, List.nil_append]
          exact ih2
        · intro p o hpo hp
          simp only [runKeybd, List.zip_cons_cons, List.mem_cons, Prod.mk.injEq] at hpo
          rcases hpo with ⟨_, rfl⟩ | hpo
          · rw [hstep]
          · rw [hstep] at hpo
            exact ih3 p o hpo hp
      · have hstep := KeybdProc_second_keyup s w e hcode0 hup hlo hhi hctrl hf
        have hpend : (⟨true, -1⟩ : State).pending = [] := by simp [State.pending]
        obtain ⟨ih1, ih2, ih3⟩ := ih ⟨true, -1⟩ rfl hcodeR hmodR
        rw [hpend, List.nil_append] at ih1 ih2
        have hps : s.pending = [s.first_quadrant] := by simp [State.pending, hf]
        refine ⟨?_, ?_, ?_⟩
        · simp only [runKeybd, placements, List.filterMap_cons, hstep, hkd, hps,
            List.singleton_append, pairUp]
          exact congrArg _ ih1
        · simp only [finalState, hstep, hkd, hps, List.singleton_append, leftOver]
          exact ih2
        · intro p o hpo hp
          simp only [runKeybd, List.zip_cons_cons, List.mem_cons, Prod.mk.injEq] at hpo
          rcases hpo with ⟨_, rfl⟩ | hpo
          · rw [hstep]
          · rw [hstep] at hpo
            exact ih3 p o hpo hp

/-- A key that is neither the left control key nor numpad 1..9 is forwarded
unchanged. -/
theorem KeybdProc_not_numpad (s : State) (w : Env) (e : Event)
    (hnl : e.vkCode ≠ VK_LCONTROL)
    (hr : ¬ (VK_NUMPAD1 ≤ e.vkCode ∧ e.vkCode ≤ VK_NUMPAD9)) :
    KeybdProc s w e = { state := s, result := .forwarded, cmds := [], placement := none } := by
  unfold KeybdProc
  by_cases hc : e.aCode < 0
  · simp [hc]
  · simp [hc, hnl, hr]

/-! ## Claims -/

/-- C1: when the second numpad key-up completes a non-maximizing pair `(q1, q2)`
of quadrants in 1..9, `KeybdProc` issues exactly one `SetWindowPos`, with
`X = left`, `Y = top`, `cx = right - left`, `cy = bottom - top`, where
`left = min(c1.left, c2.left) + b.left`, `top = min(c1.top, c2.top) + b.top`,
`right = max(c1.right, c2.right) + b.right`,
`bottom = max(c1.bottom, c2.bottom) + b.bottom`, for `c1`, `c2` the rectangles
`GetQuadrant` returns for the work area and `b` the border of the window; the
operators are the 32-bit ones of the program, and these are the exact integer
sums and differences whenever those are representable `LONG` values. -/
theorem KeybdProc_move_rect (s : State) (w : Env) (e : Event) (q1 q2 : Int) (b : RECT)
    (hq1 : 1 ≤ q1 ∧ q1 ≤ 9) (hq2 : 1 ≤ q2 ∧ q2 ≤ 9)
    (hmax : ShouldBeMaximized q1 q2 = false) (hb : GetWindowBorder w = b)
    (hcode : 0 ≤ e.aCode) (hup : e.wParam = WM_KEYUP)
    (hvk : (e.vkCode : Int) = (VK_NUMPAD1 : Int) + (q2 - 1))
    (hctrl : s.ctrl_down = true) (hfirst : s.first_quadrant = q1) :
    (KeybdProc s w e).cmds.filter Cmd.isMoveResize =
      [Cmd.SetWindowPos
        (add32 (min (GetQuadrant w.rcWork q1).left (GetQuadrant w.rcWork q2).left) b.left)
        (add32 (min (GetQuadrant w.rcWork q1).top (GetQuadrant w.rcWork q2).top) b.top)
        (sub32
          (add32 (max (GetQuadrant w.rcWork q1).right (GetQuadrant w.rcWork q2).right) b.right)
          (add32 (min (GetQuadrant w.rcWork q1).left (GetQuadrant w.rcWork q2).left) b.left))
        (sub32
          (add32 (max (GetQuadrant w.rcWork q1).bottom (GetQuadrant w.rcWork q2).bottom)
            b.bottom)
          (add32 (min (GetQuadrant w.rcWork q1).top (GetQuadrant w.rcWork q2).top) b.top))] ∧
    ∀ left top right bottom : Int,
      left = min (GetQuadrant w.rcWork q1).left (GetQuadrant w.rcWork q2).left + b.left →
      top = min (GetQuadrant w.rcWork q1).top (GetQuadrant w.rcWork q2).top + b.top →
      right = max (GetQuadrant w.rcWork q1).right (GetQuadrant w.rcWork q2).right + b.right →
      bottom =
        max (GetQuadrant w.rcWork q1).bottom (GetQuadrant w.rcWork q2).bottom + b.bottom →
      InLong left → InLong top → InLong right → InLong bottom →
      InLong (right - left) → InLong (bottom - top) →
      (KeybdProc s w e).cmds.filter Cmd.isMoveResize =
        [Cmd.SetWindowPos left top (right - left) (bottom - top)] := by
  have hlo : VK_NUMPAD1 ≤ e.vkCode := by
    have := hq2.1
    omega
  have hhi : e.vkCode ≤ VK_NUMPAD9 := by
    have := hq2.2
    unfold VK_NUMPAD1 at hvk
    unfold VK_NUMPAD9
    omega
  have hq : (e.vkCode : Int) - (VK_NUMPAD1 : Int) + 1 = q2 := by omega
  have hne : s.first_quadrant ≠ -1 := by
    have := hq1.1
    omega
  have hcmds : (KeybdProc s w e).cmds.filter Cmd.isMoveResize =
      [Cmd.SetWindowPos
        (add32 (min (GetQuadrant w.rcWork q1).left (GetQuadrant w.rcWork q2).left) b.left)
        (add32 (min (GetQuadrant w.rcWork q1).top (GetQuadrant w.rcWork q2).top) b.top)
        (sub32
          (add32 (max (GetQuadrant w.rcWork q1).right (GetQuadrant w.rcWork q2).right) b.right)
          (add32 (min (GetQuadrant w.rcWork q1).left (GetQuadrant w.rcWork q2).left) b.left))
        (sub32
          (add32 (max (GetQuadrant w.rcWork q1).bottom (GetQuadrant w.rcWork q2).bottom)
            b.bottom)
          (add32 (min (GetQuadrant w.rcWork q1).top (GetQuadrant w.rcWork q2).top)
            b.top))] := by
    rw [KeybdProc_second_keyup s w e hcode hup hlo hhi hctrl hne, hq, hfirst]
    simp only [place, hmax, hb, newRect]
    cases IsMaximized w <;> simp [Cmd.isMoveResize]
  refine ⟨hcmds, ?_⟩
  intro left top right bottom hl ht hr hbt il it ir ib iw ih
  rw [hcmds]
  subst hl ht hr hbt
  rw [add32_eq il, add32_eq it, add32_eq ir, add32_eq ib, sub32_eq iw, sub32_eq ih]

/-- C1 at the spec's example: work area (0,0,1200,900), first quadrant 1,
second quadrant 3, zero border. -/
theorem KeybdProc_move_rect_witness :
    (((1 : Int) ≤ 1 ∧ (1 : Int) ≤ 9) ∧ ((1 : Int) ≤ 3 ∧ (3 : Int) ≤ 9) ∧
      ShouldBeMaximized 1 3 = false ∧
      GetWindowBorder ⟨⟨10, 10, 500, 400⟩, ⟨10, 10, 500, 400⟩, 1, ⟨0, 0, 1200, 900⟩⟩ =
        ⟨0, 0, 0, 0⟩) ∧
    GetQuadrant ⟨0, 0, 1200, 900⟩ 1 = ⟨0, 600, 400, 900⟩ ∧
    GetQuadrant ⟨0, 0, 1200, 900⟩ 3 = ⟨800, 600, 1200, 900⟩ ∧
    (KeybdProc ⟨true, 1⟩ ⟨⟨10, 10, 500, 400⟩, ⟨10, 10, 500, 400⟩, 1, ⟨0, 0, 1200, 900⟩⟩
        (keyEvent WM_KEYUP (numpad 3))).cmds.filter Cmd.isMoveResize =
      [Cmd.SetWindowPos 0 600 (1200 - 0) (900 - 600)] :=
  ⟨by decide, by decide, by decide,
    (KeybdProc_move_rect ⟨true, 1⟩
      ⟨⟨10, 10, 500, 400⟩, ⟨10, 10, 500, 400⟩, 1, ⟨0, 0, 1200, 900⟩⟩
      (keyEvent WM_KEYUP (numpad 3)) 1 3 ⟨0, 0, 0, 0⟩ (by decide) (by decide) (by decide)
      (by decide) (by decide) rfl (by decide) rfl rfl).2 0 600 1200 900
      (by decide) (by decide) (by decide) (by decide)
      (by decide) (by decide) (by decide) (by decide) (by decide) (by decide)⟩

/-- C2: without overflow, every quadrant 1..9 of a workspace at least 3 wide and
3 high lies inside the workspace and is non-empty. -/
theorem GetQuadrant_within_nonempty (W : RECT) (q : Int) (hq1 : 1 ≤ q) (hq9 : q ≤ 9)
    (hw : 3 ≤ W.right - W.left) (hh : 3 ≤ W.bottom - W.top) (hno : NoOverflow W) :
    (W.left ≤ (GetQuadrant W q).left ∧ (GetQuadrant W q).left < (GetQuadrant W q).right ∧
      (GetQuadrant W q).right ≤ W.right) ∧
    (W.top ≤ (GetQuadrant W q).top ∧ (GetQuadrant W q).top < (GetQuadrant W q).bottom ∧
      (GetQuadrant W q).bottom ≤ W.bottom) := by
  rw [GetQuadrant_eq W q hq1 hq9 hno (by omega) (by omega)]
  simp only
  interval_cases q <;> norm_num <;> omega

/-- C2 at the centre quadrant of the work area (0,0,1000,700). -/
theorem GetQuadrant_within_nonempty_witness :
    (1 : Int) ≤ 5 ∧ (5 : Int) ≤ 9 ∧ NoOverflow ⟨0, 0, 1000, 700⟩ ∧
    GetQuadrant ⟨0, 0, 1000, 700⟩ 5 = ⟨333, 233, 666, 466⟩ ∧
    ((0 : Int) ≤ (GetQuadrant ⟨0, 0, 1000, 700⟩ 5).left ∧
      (GetQuadrant ⟨0, 0, 1000, 700⟩ 5).left < (GetQuadrant ⟨0, 0, 1000, 700⟩ 5).right ∧
      (GetQuadrant ⟨0, 0, 1000, 700⟩ 5).right ≤ 1000) ∧
    ((0 : Int) ≤ (GetQuadrant ⟨0, 0, 1000, 700⟩ 5).top ∧
      (GetQuadrant ⟨0, 0, 1000, 700⟩ 5).top < (GetQuadrant ⟨0, 0, 1000, 700⟩ 5).bottom ∧
      (GetQuadrant ⟨0, 0, 1000, 700⟩ 5).bottom ≤ 700) :=
  ⟨by decide, by decide, by decide, by decide,
    GetQuadrant_within_nonempty ⟨0, 0, 1000, 700⟩ 5 (by decide) (by decide) (by decide)
      (by decide) (by decide)⟩

/-- C3: without overflow, the nine quadrants of a workspace at least 3 wide and
3 high partition it: every point of the workspace lies in exactly one of them.
Quadrant 1 is the bottom-left cell and quadrant 9 the top-right cell, and they
reach the outer edges of the workspace. -/
theorem GetQuadrant_partition (W : RECT) (x y : Int)
    (hw : 3 ≤ W.right - W.left) (hh : 3 ≤ W.bottom - W.top) (hno : NoOverflow W)
    (hx : W.left ≤ x ∧ x < W.right) (hy : W.top ≤ y ∧ y < W.bottom) :
    (∃! q : Int, (1 ≤ q ∧ q ≤ 9) ∧ (GetQuadrant W q).contains x y) ∧
    ((GetQuadrant W 1).left = W.left ∧ (GetQuadrant W 1).bottom = W.bottom) ∧
    ((GetQuadrant W 9).right = W.right ∧ (GetQuadrant W 9).top = W.top) := by
  have hw0 : 0 ≤ W.right - W.left := by omega
  have hh0 : 0 ≤ W.bottom - W.top := by omega
  refine ⟨?_, ?_, ?_⟩
  · obtain ⟨c, hc, hcx⟩ := thirds_exists W.left (W.right - W.left) x (by omega)
    obtain ⟨r, hr, hry⟩ := thirds_exists W.top (W.bottom - W.top) y (by omega)
    refine ⟨3 * (2 - r) + c + 1, ⟨by omega, ?_⟩, ?_⟩
    · rw [GetQuadrant_eq W _ (by omega) (by omega) hno hw0 hh0]
      have e1 : (3 * (2 - r) + c + 1 - 1) % 3 = c := by omega
      have e2 : 2 - (3 * (2 - r) + c + 1 - 1) / 3 = r := by omega
      simp only [RECT.contains, e1, e2]
      exact ⟨hcx, hry⟩
    · rintro q ⟨⟨hq1, hq9⟩, hq⟩
      rw [GetQuadrant_eq W q hq1 hq9 hno hw0 hh0] at hq
      simp only [RECT.contains] at hq
      have ec := thirds_unique W.left (W.right - W.left) x ((q - 1) % 3) c
        (by omega) hc hq.1 hcx
      have er := thirds_unique W.top (W.bottom - W.top) y (2 - (q - 1) / 3) r
        (by omega) hr hq.2 hry
      omega
  · rw [GetQuadrant_eq W 1 (by decide) (by decide) hno hw0 hh0]
    norm_num
  · rw [GetQuadrant_eq W 9 (by decide) (by decide) hno hw0 hh0]
    norm_num

/-- C3 at the bottom-right pixel of the work area (0,0,1000,700), which lies in
quadrant 3. -/
theorem GetQuadrant_partition_witness :
    ((3 : Int) ≤ 1000 - 0 ∧ (3 : Int) ≤ 700 - 0 ∧ NoOverflow ⟨0, 0, 1000, 700⟩ ∧
      ((0 : Int) ≤ 999 ∧ (999 : Int) < 1000) ∧ ((0 : Int) ≤ 699 ∧ (699 : Int) < 700)) ∧
    (GetQuadrant ⟨0, 0, 1000, 700⟩ 3).contains 999 699 ∧
    ((∃! q : Int, (1 ≤ q ∧ q ≤ 9) ∧ (GetQuadrant ⟨0, 0, 1000, 700⟩ q).contains 999 699) ∧
      ((GetQuadrant ⟨0, 0, 1000, 700⟩ 1).left = 0 ∧
        (GetQuadrant ⟨0, 0, 1000, 700⟩ 1).bottom = 700) ∧
      ((GetQuadrant ⟨0, 0, 1000, 700⟩ 9).right = 1000 ∧
        (GetQuadrant ⟨0, 0, 1000, 700⟩ 9).top = 0)) :=
  ⟨by decide, by decide,
    GetQuadrant_partition ⟨0, 0, 1000, 700⟩ 999 699 (by decide) (by decide) (by decide)
      (by decide) (by decide)⟩

/-- C4: `ShouldBeMaximized` is true exactly for the ordered pairs (1,9), (9,1),
(3,7), (7,3); it is false on equal arguments and whenever an argument is one of
2, 4, 5, 6, 8. -/
theorem ShouldBeMaximized_iff (q1 q2 : Int) :
    (ShouldBeMaximized q1 q2 = true ↔
      (q1 = 1 ∧ q2 = 9) ∨ (q1 = 9 ∧ q2 = 1) ∨ (q1 = 3 ∧ q2 = 7) ∨ (q1 = 7 ∧ q2 = 3)) ∧
    (q1 = q2 → ShouldBeMaximized q1 q2 = false) ∧
    ((q1 = 2 ∨ q1 = 4 ∨ q1 = 5 ∨ q1 = 6 ∨ q1 = 8 ∨
        q2 = 2 ∨ q2 = 4 ∨ q2 = 5 ∨ q2 = 6 ∨ q2 = 8) → ShouldBeMaximized q1 q2 = false) := by
  refine ⟨?_, ?_, ?_⟩
  · unfold ShouldBeMaximized
    split_ifs <;> simp_all
  · intro h
    unfold ShouldBeMaximized
    split_ifs <;> first | rfl | omega
  · intro h
    unfold ShouldBeMaximized
    split_ifs <;> first | rfl | omega

/-- C4 at three concrete pairs. -/
theorem ShouldBeMaximized_iff_witness :
    ShouldBeMaximized 3 7 = true ∧ ShouldBeMaximized 5 5 = false ∧
    ShouldBeMaximized 2 9 = false :=
  ⟨(ShouldBeMaximized_iff 3 7).1.mpr (by decide), (ShouldBeMaximized_iff 5 5).2.1 rfl,
    (ShouldBeMaximized_iff 2 9).2.2 (by decide)⟩

/-- C5: from the initial state the gesture control-down, 3 down and up, 7 down
and up, control-up makes exactly one placement, for (3, 7); it takes the
maximize branch, so the commands of the whole run are a single maximize, or
nothing when the window is already maximized, and never a restore or a
move/resize. -/
theorem gesture_3_7_maximizes (w : Nat → Env) :
    placements (runKeybd State.initial (snapshots w 0 gesture37)) = [(3, 7)] ∧
    ShouldBeMaximized 3 7 = true ∧
    allCmds (runKeybd State.initial (snapshots w 0 gesture37)) =
      (if IsMaximized (w 4) then [] else [Cmd.ShowWindow SW_MAXIMIZE]) ∧
    (∀ c ∈ allCmds (runKeybd State.initial (snapshots w 0 gesture37)),
      c.isMaximize = true ∧ c.isRestore = false ∧ c.isMoveResize = false) := by
  have h : allCmds (runKeybd State.initial (snapshots w 0 gesture37)) =
      (if IsMaximized (w 4) then [] else [Cmd.ShowWindow SW_MAXIMIZE]) := by
    simp [gesture37, snapshots, runKeybd, KeybdProc, keyEvent, numpad, allCmds, place,
      ShouldBeMaximized, State.initial, WM_KEYDOWN, WM_KEYUP, VK_LCONTROL, VK_NUMPAD1,
      VK_NUMPAD9]
    cases IsMaximized (w 4) <;> rfl
  refine ⟨?_, by decide, h, ?_⟩
  · simp [gesture37, snapshots, runKeybd, KeybdProc, keyEvent, numpad, placements,
      State.initial, WM_KEYDOWN, WM_KEYUP, VK_LCONTROL, VK_NUMPAD1, VK_NUMPAD9]
  · rw [h]
    cases IsMaximized (w 4) <;> simp [Cmd.isMaximize, Cmd.isRestore, Cmd.isMoveResize]

/-- C6: from every state, a key-up of the left control key leaves the statics at
their initial values (control not held, no pending quadrant) and makes no
placement. From the initial state the gesture control-down, 1 down and up,
control-up makes no placement and ends in the initial state, and the gesture
control-down, 5 down and up, 2 down and up that follows makes exactly one
placement, for (5, 2). -/
theorem ctrl_up_discards (s : State) (w : Env) (e : Event) (hcode : 0 ≤ e.aCode)
    (hvk : e.vkCode = VK_LCONTROL) (hup : e.wParam = WM_KEYUP) :
    ((KeybdProc s w e).state = State.initial ∧ (KeybdProc s w e).placement = none ∧
      (KeybdProc s w e).cmds = []) ∧
    (∀ v : Nat → Env,
      placements (runKeybd State.initial (snapshots v 0 gestureAbandoned)) = [] ∧
      finalState State.initial (snapshots v 0 gestureAbandoned) = State.initial ∧
      placements (runKeybd State.initial (snapshots v 0 (gestureAbandoned ++ gesture52))) =
        [(5, 2)] ∧
      placements
          (runKeybd (finalState State.initial (snapshots v 0 gestureAbandoned))
            (snapshots v 4 gesture52)) = [(5, 2)]) := by
  constructor
  · unfold KeybdProc
    simp [hvk, hup, Int.not_lt.mpr hcode, State.initial, WM_KEYDOWN, WM_KEYUP, VK_LCONTROL,
      VK_NUMPAD1, VK_NUMPAD9]
  · intro v
    simp [gestureAbandoned, gesture52, snapshots, runKeybd, finalState, KeybdProc, keyEvent,
      numpad, placements, State.initial, WM_KEYDOWN, WM_KEYUP, VK_LCONTROL, VK_NUMPAD1,
      VK_NUMPAD9]

/-- C6 at a state with the control key held and quadrant 4 pending. -/
theorem ctrl_up_discards_witness :
    ((0 : Int) ≤ (keyEvent WM_KEYUP VK_LCONTROL).aCode ∧
      (keyEvent WM_KEYUP VK_LCONTROL).vkCode = VK_LCONTROL ∧
      (keyEvent WM_KEYUP VK_LCONTROL).wParam = WM_KEYUP) ∧
    (KeybdProc ⟨true, 4⟩ ⟨⟨0, 0, 0, 0⟩, ⟨0, 0, 0, 0⟩, 1, ⟨0, 0, 1200, 900⟩⟩
        (keyEvent WM_KEYUP VK_LCONTROL)).state = State.initial ∧
    (KeybdProc ⟨true, 4⟩ ⟨⟨0, 0, 0, 0⟩, ⟨0, 0, 0, 0⟩, 1, ⟨0, 0, 1200, 900⟩⟩
        (keyEvent WM_KEYUP VK_LCONTROL)).placement = none ∧
    (KeybdProc ⟨true, 4⟩ ⟨⟨0, 0, 0, 0⟩, ⟨0, 0, 0, 0⟩, 1, ⟨0, 0, 1200, 900⟩⟩
        (keyEvent WM_KEYUP VK_LCONTROL)).cmds = [] :=
  ⟨by decide,
    (ctrl_up_discards ⟨true, 4⟩ ⟨⟨0, 0, 0, 0⟩, ⟨0, 0, 0, 0⟩, 1, ⟨0, 0, 1200, 900⟩⟩
      (keyEvent WM_KEYUP VK_LCONTROL) (by decide) rfl rfl).1⟩

/-- C7: while the control key is held, with or without a pending quadrant, a
key-down of numpad 1..9 is consumed, issues no window command, makes no
placement and leaves the statics unchanged. -/
theorem numpad_down_consumed (s : State) (w : Env) (e : Event) (hcode : 0 ≤ e.aCode)
    (hctrl : s.ctrl_down = true) (hdown : e.wParam = WM_KEYDOWN)
    (hlo : VK_NUMPAD1 ≤ e.vkCode) (hhi : e.vkCode ≤ VK_NUMPAD9) :
    KeybdProc s w e = { state := s, result := .consumed, cmds := [], placement := none } := by
  have hnl : e.vkCode ≠ VK_LCONTROL := by
    unfold VK_NUMPAD9 at hhi
    unfold VK_LCONTROL
    omega
  have hkd : WM_KEYDOWN ≠ WM_KEYUP := by decide
  unfold KeybdProc
  simp [hdown, hlo, hhi, hctrl, hnl, hkd, Int.not_lt.mpr hcode]

/-- C7 at a state with quadrant 2 pending and at a state with none pending. -/
theorem numpad_down_consumed_witness :
    KeybdProc ⟨true, 2⟩ ⟨⟨0, 0, 0, 0⟩, ⟨0, 0, 0, 0⟩, 1, ⟨0, 0, 1200, 900⟩⟩
        (keyEvent WM_KEYDOWN (numpad 6)) =
      { state := ⟨true, 2⟩, result := .consumed, cmds := [], placement := none } ∧
    KeybdProc ⟨true, -1⟩ ⟨⟨0, 0, 0, 0⟩, ⟨0, 0, 0, 0⟩, 1, ⟨0, 0, 1200, 900⟩⟩
        (keyEvent WM_KEYDOWN (numpad 9)) =
      { state := ⟨true, -1⟩, result := .consumed, cmds := [], placement := none } :=
  ⟨numpad_down_consumed ⟨true, 2⟩ ⟨⟨0, 0, 0, 0⟩, ⟨0, 0, 0, 0⟩, 1, ⟨0, 0, 1200, 900⟩⟩
      (keyEvent WM_KEYDOWN (numpad 6)) (by decide) rfl rfl (by decide) (by decide),
    numpad_down_consumed ⟨true, -1⟩ ⟨⟨0, 0, 0, 0⟩, ⟨0, 0, 0, 0⟩, 1, ⟨0, 0, 1200, 900⟩⟩
      (keyEvent WM_KEYDOWN (numpad 9)) (by decide) rfl rfl (by decide) (by decide)⟩

/-- C8: an event whose key is neither the left control key nor numpad 1..9, or
whose key is numpad 1..9 while the control key is not held, is forwarded to the
next hook, issues no window command, makes no placement and leaves the statics
unchanged; this holds for key-down, key-up and every other message. -/
theorem other_event_forwarded (s : State) (w : Env) (e : Event)
    (h : (e.vkCode ≠ VK_LCONTROL ∧ ¬ (VK_NUMPAD1 ≤ e.vkCode ∧ e.vkCode ≤ VK_NUMPAD9)) ∨
      ((VK_NUMPAD1 ≤ e.vkCode ∧ e.vkCode ≤ VK_NUMPAD9) ∧ s.ctrl_down = false)) :
    KeybdProc s w e = { state := s, result := .forwarded, cmds := [], placement := none } := by
  unfold KeybdProc
  by_cases hc : e.aCode < 0
  · simp [hc]
  · rcases h with ⟨hnl, hnn⟩ | ⟨⟨hlo, hhi⟩, hctrl⟩
    · simp [hc, hnl, hnn]
    · have hnl : e.vkCode ≠ VK_LCONTROL := by
        unfold VK_NUMPAD9 at hhi
        unfold VK_LCONTROL
        omega
      simp [hc, hnl, hctrl]

/-- C8 at an escape key-down with the control key held and a quadrant pending,
and at a numpad 4 key-up with the control key not held. -/
theorem other_event_forwarded_witness :
    KeybdProc ⟨true, 3⟩ ⟨⟨0, 0, 0, 0⟩, ⟨0, 0, 0, 0⟩, 1, ⟨0, 0, 1200, 900⟩⟩
        (keyEvent WM_KEYDOWN 0x1B) =
      { state := ⟨true, 3⟩, result := .forwarded, cmds := [], placement := none } ∧
    KeybdProc ⟨false, -1⟩ ⟨⟨0, 0, 0, 0⟩, ⟨0, 0, 0, 0⟩, 1, ⟨0, 0, 1200, 900⟩⟩
        (keyEvent WM_KEYUP (numpad 4)) =
      { state := ⟨false, -1⟩, result := .forwarded, cmds := [], placement := none } :=
  ⟨other_event_forwarded ⟨true, 3⟩ ⟨⟨0, 0, 0, 0⟩, ⟨0, 0, 0, 0⟩, 1, ⟨0, 0, 1200, 900⟩⟩
      (keyEvent WM_KEYDOWN 0x1B) (Or.inl (by decide)),
    other_event_forwarded ⟨false, -1⟩ ⟨⟨0, 0, 0, 0⟩, ⟨0, 0, 0, 0⟩, 1, ⟨0, 0, 1200, 900⟩⟩
      (keyEvent WM_KEYUP (numpad 4)) (Or.inr (by decide))⟩

/-- C9: when the second numpad key-up completes a pair `(q1, q2)` for which
`ShouldBeMaximized` is true, the placement is made for that pair and the
commands issued are one `ShowWindow(.., SW_MAXIMIZE)` when the window is not
maximized and none when it is; no restore and no move/resize is issued, the
event is consumed and the pending quadrant is cleared. -/
theorem KeybdProc_maximize (s : State) (w : Env) (e : Event) (q1 q2 : Int)
    (hmax : ShouldBeMaximized q1 q2 = true)
    (hcode : 0 ≤ e.aCode) (hup : e.wParam = WM_KEYUP)
    (hvk : (e.vkCode : Int) = (VK_NUMPAD1 : Int) + (q2 - 1))
    (hctrl : s.ctrl_down = true) (hfirst : s.first_quadrant = q1) :
    (KeybdProc s w e).placement = some (q1, q2) ∧
    (KeybdProc s w e).cmds =
      (if IsMaximized w then [] else [Cmd.ShowWindow SW_MAXIMIZE]) ∧
    (∀ c ∈ (KeybdProc s w e).cmds,
      c.isMaximize = true ∧ c.isRestore = false ∧ c.isMoveResize = false) ∧
    (KeybdProc s w e).result = .consumed ∧
    (KeybdProc s w e).state = { ctrl_down := true, first_quadrant := -1 } := by
  have hq : (q1 = 1 ∧ q2 = 9) ∨ (q1 = 9 ∧ q2 = 1) ∨ (q1 = 3 ∧ q2 = 7) ∨ (q1 = 7 ∧ q2 = 3) := by
    unfold ShouldBeMaximized at hmax
    split_ifs at hmax <;> simp_all
  have hlo : VK_NUMPAD1 ≤ e.vkCode := by omega
  have hhi : e.vkCode ≤ VK_NUMPAD9 := by
    unfold VK_NUMPAD1 at hvk
    unfold VK_NUMPAD9
    omega
  have hk : (e.vkCode : Int) - (VK_NUMPAD1 : Int) + 1 = q2 := by omega
  have hne : s.first_quadrant ≠ -1 := by omega
  rw [KeybdProc_second_keyup s w e hcode hup hlo hhi hctrl hne, hk, hfirst]
  simp only [place, hmax, if_true]
  cases IsMaximized w <;> simp [Cmd.isMaximize, Cmd.isRestore, Cmd.isMoveResize]

/-- C9 at the pair (1, 9), for a window that is not maximized. -/
theorem KeybdProc_maximize_witness :
    ShouldBeMaximized 1 9 = true ∧
    (KeybdProc ⟨true, 1⟩ ⟨⟨0, 0, 0, 0⟩, ⟨0, 0, 0, 0⟩, 1, ⟨0, 0, 1200, 900⟩⟩
        (keyEvent WM_KEYUP (numpad 9))).cmds = [Cmd.ShowWindow SW_MAXIMIZE] :=
  ⟨by decide,
    (KeybdProc_maximize ⟨true, 1⟩ ⟨⟨0, 0, 0, 0⟩, ⟨0, 0, 0, 0⟩, 1, ⟨0, 0, 1200, 900⟩⟩
      (keyEvent WM_KEYUP (numpad 9)) 1 9 (by decide) (by decide) rfl (by decide) rfl rfl).2.1⟩

/-- C10: when the second numpad key-up completes a pair `(q1, q2)` of quadrants
in 1..9 for which `ShouldBeMaximized` is false, the commands issued are
`ShowWindowAsync(.., SW_SHOWNORMAL)` followed by one `SetWindowPos` when the
window is maximized, and that one `SetWindowPos` alone when it is not; the
`SetWindowPos` is the last command and no maximize is issued. -/
theorem KeybdProc_restore_then_move (s : State) (w : Env) (e : Event) (q1 q2 : Int)
    (hq1 : 1 ≤ q1 ∧ q1 ≤ 9) (hq2 : 1 ≤ q2 ∧ q2 ≤ 9)
    (hmax : ShouldBeMaximized q1 q2 = false)
    (hcode : 0 ≤ e.aCode) (hup : e.wParam = WM_KEYUP)
    (hvk : (e.vkCode : Int) = (VK_NUMPAD1 : Int) + (q2 - 1))
    (hctrl : s.ctrl_down = true) (hfirst : s.first_quadrant = q1) :
    (KeybdProc s w e).placement = some (q1, q2) ∧
    (∃ X Y cx cy : Int,
      (KeybdProc s w e).cmds =
        (if IsMaximized w then
          [Cmd.ShowWindowAsync SW_SHOWNORMAL, Cmd.SetWindowPos X Y cx cy]
        else [Cmd.SetWindowPos X Y cx cy]) ∧
      (KeybdProc s w e).cmds.getLast? = some (Cmd.SetWindowPos X Y cx cy)) ∧
    ((KeybdProc s w e).cmds.filter Cmd.isMoveResize).length = 1 ∧
    (∀ c ∈ (KeybdProc s w e).cmds, c.isMaximize = false) := by
  have hlo : VK_NUMPAD1 ≤ e.vkCode := by
    have := hq2.1
    omega
  have hhi : e.vkCode ≤ VK_NUMPAD9 := by
    have := hq2.2
    unfold VK_NUMPAD1 at hvk
    unfold VK_NUMPAD9
    omega
  have hk : (e.vkCode : Int) - (VK_NUMPAD1 : Int) + 1 = q2 := by omega
  have hne : s.first_quadrant ≠ -1 := by
    have := hq1.1
    omega
  rw [KeybdProc_second_keyup s w e hcode hup hlo hhi hctrl hne, hk, hfirst]
  simp only [place, hmax, Bool.false_eq_true, if_false]
  generalize newRect (GetQuadrant w.rcWork q1) (GetQuadrant w.rcWork q2) (GetWindowBorder w) = r
  refine ⟨trivial, ⟨r.left, r.top, sub32 r.right r.left, sub32 r.bottom r.top, ?_, ?_⟩, ?_, ?_⟩ <;>
    cases IsMaximized w <;> simp [Cmd.isMaximize, Cmd.isMoveResize]

/-- C10 at the pair (1, 3), for a maximized window on the work area
(0,0,1200,900) with a zero border. -/
theorem KeybdProc_restore_then_move_witness :
    (((1 : Int) ≤ 1 ∧ (1 : Int) ≤ 9) ∧ ((1 : Int) ≤ 3 ∧ (3 : Int) ≤ 9) ∧
      ShouldBeMaximized 1 3 = false ∧
      IsMaximized ⟨⟨0, 0, 0, 0⟩, ⟨0, 0, 0, 0⟩, 3, ⟨0, 0, 1200, 900⟩⟩ = true) ∧
    (KeybdProc ⟨true, 1⟩ ⟨⟨0, 0, 0, 0⟩, ⟨0, 0, 0, 0⟩, 3, ⟨0, 0, 1200, 900⟩⟩
        (keyEvent WM_KEYUP (numpad 3))).cmds =
      [Cmd.ShowWindowAsync SW_SHOWNORMAL, Cmd.SetWindowPos 0 600 1200 300] ∧
    ((KeybdProc ⟨true, 1⟩ ⟨⟨0, 0, 0, 0⟩, ⟨0, 0, 0, 0⟩, 3, ⟨0, 0, 1200, 900⟩⟩
        (keyEvent WM_KEYUP (numpad 3))).cmds.filter Cmd.isMoveResize).length = 1 :=
  ⟨by decide, by decide,
    (KeybdProc_restore_then_move ⟨true, 1⟩
      ⟨⟨0, 0, 0, 0⟩, ⟨0, 0, 0, 0⟩, 3, ⟨0, 0, 1200, 900⟩⟩
      (keyEvent WM_KEYUP (numpad 3)) 1 3 (by decide) (by decide) (by decide) (by decide)
      rfl (by decide) rfl rfl).2.2.1⟩

/-- C11: the bounding box of two rectangles does not depend on their order, so
the target rectangle computed for the selection `(q1, q2)` is the one computed
for `(q2, q1)`, for every work area and border. -/
theorem unionRect_comm (A B W b : RECT) (q1 q2 : Int) :
    unionRect A B = unionRect B A ∧
    newRect (GetQuadrant W q1) (GetQuadrant W q2) b =
      newRect (GetQuadrant W q2) (GetQuadrant W q1) b := by
  constructor
  · simp only [unionRect, min_comm A.left, min_comm A.top, max_comm A.right,
      max_comm A.bottom]
  · simp only [newRect, min_comm (GetQuadrant W q1).left, min_comm (GetQuadrant W q1).top,
      max_comm (GetQuadrant W q1).right, max_comm (GetQuadrant W q1).bottom]

/-- C12: the bounding box contains both rectangles, every rectangle containing
both contains the bounding box, and each of its edges is the corresponding edge
of one of the two; this holds for all rectangles, well-formed or not, adjacent
or not. -/
theorem unionRect_tight (A B : RECT) :
    (unionRect A B).encloses A ∧ (unionRect A B).encloses B ∧
    (∀ R : RECT, R.encloses A → R.encloses B → R.encloses (unionRect A B)) ∧
    ((unionRect A B).left = A.left ∨ (unionRect A B).left = B.left) ∧
    ((unionRect A B).top = A.top ∨ (unionRect A B).top = B.top) ∧
    ((unionRect A B).right = A.right ∨ (unionRect A B).right = B.right) ∧
    ((unionRect A B).bottom = A.bottom ∨ (unionRect A B).bottom = B.bottom) := by
  simp only [unionRect, RECT.encloses]
  refine ⟨by omega, by omega, ?_, by omega, by omega, by omega, by omega⟩
  intro R hA hB
  omega

/-- C12 at two cells that are not adjacent, quadrants 1 and 9 of (0,0,1200,900),
and the work area as a rectangle containing both. -/
theorem unionRect_tight_witness :
    unionRect ⟨0, 600, 400, 900⟩ ⟨800, 0, 1200, 300⟩ = ⟨0, 0, 1200, 900⟩ ∧
    (unionRect ⟨0, 600, 400, 900⟩ ⟨800, 0, 1200, 300⟩).encloses ⟨0, 600, 400, 900⟩ ∧
    (unionRect ⟨0, 600, 400, 900⟩ ⟨800, 0, 1200, 300⟩).encloses ⟨800, 0, 1200, 300⟩ ∧
    RECT.encloses ⟨-5, -5, 1300, 1000⟩ (unionRect ⟨0, 600, 400, 900⟩ ⟨800, 0, 1200, 300⟩) :=
  ⟨by decide, (unionRect_tight ⟨0, 600, 400, 900⟩ ⟨800, 0, 1200, 300⟩).1,
    (unionRect_tight ⟨0, 600, 400, 900⟩ ⟨800, 0, 1200, 300⟩).2.1,
    (unionRect_tight ⟨0, 600, 400, 900⟩ ⟨800, 0, 1200, 300⟩).2.2.1 ⟨-5, -5, 1300, 1000⟩
      (by decide) (by decide)⟩

/-- C13: `ShouldBeMaximized` gives the same answer for `(a, b)` and `(b, a)`. -/
theorem ShouldBeMaximized_symm (a b : Int) :
    ShouldBeMaximized a b = ShouldBeMaximized b a := by
  unfold ShouldBeMaximized
  split_ifs <;> first | rfl | omega

/-- C14, at a failing input: on the all-zero work area the completed pair
(1, 2) still gets a `SetWindowPos`, here with the border (-7, 0, 7, 7) as the
rectangle, preceded by the restore when the window is maximized. -/
theorem degenerate_workspace_still_moves :
    ShouldBeMaximized 1 2 = false ∧
    (KeybdProc ⟨true, 1⟩ ⟨⟨100, 100, 500, 400⟩, ⟨107, 100, 493, 393⟩, 1, ⟨0, 0, 0, 0⟩⟩
        (keyEvent WM_KEYUP (numpad 2))).cmds = [Cmd.SetWindowPos (-7) 0 14 7] ∧
    (KeybdProc ⟨true, 1⟩ ⟨⟨100, 100, 500, 400⟩, ⟨107, 100, 493, 393⟩, 3, ⟨0, 0, 0, 0⟩⟩
        (keyEvent WM_KEYUP (numpad 2))).cmds =
      [Cmd.ShowWindowAsync SW_SHOWNORMAL, Cmd.SetWindowPos (-7) 0 14 7] := by
  decide

/-- C14 as amended: there is no guard on the work area. For every completed
pair of quadrants in 1..9 with `ShouldBeMaximized` false and every work area,
an empty one (zero width or zero height) included, exactly one `SetWindowPos`
is issued, and the restore is issued exactly when the window is maximized; on
the all-zero work area the rectangle passed is the border alone. -/
theorem degenerate_workspace_no_guard (s : State) (w : Env) (e : Event) (q1 q2 : Int)
    (hq1 : 1 ≤ q1 ∧ q1 ≤ 9) (hq2 : 1 ≤ q2 ∧ q2 ≤ 9)
    (hmax : ShouldBeMaximized q1 q2 = false)
    (hcode : 0 ≤ e.aCode) (hup : e.wParam = WM_KEYUP)
    (hvk : (e.vkCode : Int) = (VK_NUMPAD1 : Int) + (q2 - 1))
    (hctrl : s.ctrl_down = true) (hfirst : s.first_quadrant = q1) :
    ((KeybdProc s w e).cmds.filter Cmd.isMoveResize).length = 1 ∧
    (KeybdProc s w e).cmds.filter Cmd.isRestore =
      (if IsMaximized w then [Cmd.ShowWindowAsync SW_SHOWNORMAL] else []) ∧
    (w.rcWork = ⟨0, 0, 0, 0⟩ →
      (KeybdProc s w e).cmds.filter Cmd.isMoveResize =
        [Cmd.SetWindowPos (GetWindowBorder w).left (GetWindowBorder w).top
          (sub32 (GetWindowBorder w).right (GetWindowBorder w).left)
          (sub32 (GetWindowBorder w).bottom (GetWindowBorder w).top)]) := by
  have hlo : VK_NUMPAD1 ≤ e.vkCode := by
    have := hq2.1
    omega
  have hhi : e.vkCode ≤ VK_NUMPAD9 := by
    have := hq2.2
    unfold VK_NUMPAD1 at hvk
    unfold VK_NUMPAD9
    omega
  have hk : (e.vkCode : Int) - (VK_NUMPAD1 : Int) + 1 = q2 := by omega
  have hne : s.first_quadrant ≠ -1 := by
    have := hq1.1
    omega
  rw [KeybdProc_second_keyup s w e hcode hup hlo hhi hctrl hne, hk, hfirst]
  simp only [place, hmax, Bool.false_eq_true, if_false]
  refine ⟨?_, ?_, ?_⟩
  · cases IsMaximized w <;> simp [Cmd.isMoveResize]
  · cases IsMaximized w <;> simp [Cmd.isRestore, SW_SHOWNORMAL]
  · intro hz
    rw [hz, GetQuadrant_zero q1 hq1.1 hq1.2, GetQuadrant_zero q2 hq2.1 hq2.2]
    have e0 : ∀ x : Int, add32 0 (wrap32 x) = wrap32 x := by
      intro x
      unfold add32
      rw [Int.zero_add]
      exact wrap32_eq_self (wrap32_inLong x)
    simp only [newRect, GetWindowBorder, sub32, min_self, max_self, e0]
    cases IsMaximized w <;> simp [Cmd.isMoveResize]

/-- C14 as amended, at the all-zero work area with a maximized window. -/
theorem degenerate_workspace_no_guard_witness :
    ShouldBeMaximized 4 5 = false ∧
    ((KeybdProc ⟨true, 4⟩ ⟨⟨100, 100, 500, 400⟩, ⟨107, 100, 493, 393⟩, 3, ⟨0, 0, 0, 0⟩⟩
        (keyEvent WM_KEYUP (numpad 5))).cmds.filter Cmd.isMoveResize).length = 1 ∧
    (KeybdProc ⟨true, 4⟩ ⟨⟨100, 100, 500, 400⟩, ⟨107, 100, 493, 393⟩, 3, ⟨0, 0, 0, 0⟩⟩
        (keyEvent WM_KEYUP (numpad 5))).cmds.filter Cmd.isRestore =
      [Cmd.ShowWindowAsync SW_SHOWNORMAL] :=
  ⟨by decide,
    (degenerate_workspace_no_guard ⟨true, 4⟩
      ⟨⟨100, 100, 500, 400⟩, ⟨107, 100, 493, 393⟩, 3, ⟨0, 0, 0, 0⟩⟩
      (keyEvent WM_KEYUP (numpad 5)) 4 5 (by decide) (by decide) (by decide)
      (by decide) rfl (by decide) rfl rfl).1,
    (degenerate_workspace_no_guard ⟨true, 4⟩
      ⟨⟨100, 100, 500, 400⟩, ⟨107, 100, 493, 393⟩, 3, ⟨0, 0, 0, 0⟩⟩
      (keyEvent WM_KEYUP (numpad 5)) 4 5 (by decide) (by decide) (by decide)
      (by decide) rfl (by decide) rfl rfl).2.1⟩

/-- C15: from a state with the control key held and no pending quadrant, for a
sequence of key events without a control key-up, the placements are the
numpad 1..9 key-ups `d1, d2, ..` taken two by two in order: there are
`k / 2` of them, placement `i` (from 0) is `(d(2i+1), d(2i+2))`, every numpad
key-up is consumed, and afterwards no quadrant is pending when `k` is even and
`dk` is pending when `k` is odd. -/
theorem selections_paired_in_order (s : State) (evs : List (Env × Event))
    (hctrl : s.ctrl_down = true) (hnone : s.first_quadrant = -1)
    (hcode : ∀ p ∈ evs, 0 ≤ p.2.aCode)
    (hmod : ∀ p ∈ evs, ¬ (p.2.vkCode = VK_LCONTROL ∧ p.2.wParam = WM_KEYUP)) :
    placements (runKeybd s evs) = pairUp (keyUpDigits evs) ∧
    (placements (runKeybd s evs)).length = (keyUpDigits evs).length / 2 ∧
    (∀ (i : Nat) (a b : Int), (keyUpDigits evs)[2 * i]? = some a →
      (keyUpDigits evs)[2 * i + 1]? = some b →
      (placements (runKeybd s evs))[i]? = some (a, b)) ∧
    (∀ p o, (p, o) ∈ evs.zip (runKeybd s evs) → isNumpadKeyUp p.2 = true →
      o.result = .consumed) ∧
    ((keyUpDigits evs).length % 2 = 0 → (finalState s evs).first_quadrant = -1) ∧
    ((keyUpDigits evs).length % 2 = 1 →
      some (finalState s evs).first_quadrant = (keyUpDigits evs).getLast?) := by
  obtain ⟨h1, h2, h3⟩ := runKeybd_pairing evs s hctrl hcode hmod
  have hp : s.pending = [] := by simp [State.pending, hnone]
  rw [hp, List.nil_append] at h1 h2
  refine ⟨h1, ?_, ?_, h3, ?_, ?_⟩
  · rw [h1]
    exact pairUp_length _
  · rw [h1]
    exact pairUp_getElem _
  · intro h
    rw [h2]
    exact leftOver_even _ h
  · intro h
    rw [h2]
    exact leftOver_odd _ h

/-- C15 at a run whose numpad key-ups are 5, 2, 8: one placement, (5, 2), and 8
left pending. -/
theorem selections_paired_in_order_witness :
    ((∀ p ∈ snapshots (fun _ => sampleEnv) 0 gestureInterleaved, 0 ≤ p.2.aCode) ∧
      (∀ p ∈ snapshots (fun _ => sampleEnv) 0 gestureInterleaved,
        ¬ (p.2.vkCode = VK_LCONTROL ∧ p.2.wParam = WM_KEYUP))) ∧
    keyUpDigits (snapshots (fun _ => sampleEnv) 0 gestureInterleaved) = [5, 2, 8] ∧
    placements (runKeybd ⟨true, -1⟩ (snapshots (fun _ => sampleEnv) 0 gestureInterleaved)) =
      [(5, 2)] ∧
    (finalState ⟨true, -1⟩
      (snapshots (fun _ => sampleEnv) 0 gestureInterleaved)).first_quadrant = 8 :=
  ⟨by decide, by decide,
    (selections_paired_in_order ⟨true, -1⟩
      (snapshots (fun _ => sampleEnv) 0 gestureInterleaved) rfl rfl
      (by decide) (by decide)).1,
    by decide⟩

/-- C16: after each event of any sequence fed to `KeybdProc` from the initial
state, `first_quadrant` is -1 or in 1..9, and it differs from -1 only while
`ctrl_down` is set; every placement made is for two quadrants in 1..9. -/
theorem reachable_invariant (evs : List (Env × Event)) :
    ∀ o ∈ runKeybd State.initial evs,
      (o.state.first_quadrant = -1 ∨
        (1 ≤ o.state.first_quadrant ∧ o.state.first_quadrant ≤ 9)) ∧
      (o.state.first_quadrant ≠ -1 → o.state.ctrl_down = true) ∧
      (∀ p, o.placement = some p → (1 ≤ p.1 ∧ p.1 ≤ 9) ∧ (1 ≤ p.2 ∧ p.2 ≤ 9)) := by
  have key : ∀ (l : List (Env × Event)) (s : State), s.Reachable →
      ∀ o ∈ runKeybd s l, o.state.Reachable ∧
        ∀ p, o.placement = some p → (1 ≤ p.1 ∧ p.1 ≤ 9) ∧ (1 ≤ p.2 ∧ p.2 ≤ 9) := by
    intro l
    induction l with
    | nil =>
      intro s _ o ho
      simp [runKeybd] at ho
    | cons hd rest ih =>
      obtain ⟨w, e⟩ := hd
      intro s hs o ho
      have hstep := KeybdProc_reachable s w e hs
      simp only [runKeybd, List.mem_cons] at ho
      rcases ho with rfl | ho
      · exact hstep
      · exact ih _ hstep.1 o ho
  intro o ho
  obtain ⟨⟨h1, h2⟩, h3⟩ := key evs State.initial (by decide) o ho
  exact ⟨h1, h2, h3⟩

/-- C16 at the last outcome of the gesture control, 5, 2: the placement (5, 2). -/
theorem reachable_invariant_witness :
    KeybdProc ⟨true, 5⟩ sampleEnv (keyEvent WM_KEYUP (numpad 2)) ∈
      runKeybd State.initial (snapshots (fun _ => sampleEnv) 0 gesture52) ∧
    (KeybdProc ⟨true, 5⟩ sampleEnv (keyEvent WM_KEYUP (numpad 2))).placement = some (5, 2) ∧
    ((KeybdProc ⟨true, 5⟩ sampleEnv (keyEvent WM_KEYUP (numpad 2))).state.first_quadrant = -1 ∨
      (1 ≤ (KeybdProc ⟨true, 5⟩ sampleEnv
          (keyEvent WM_KEYUP (numpad 2))).state.first_quadrant ∧
        (KeybdProc ⟨true, 5⟩ sampleEnv
          (keyEvent WM_KEYUP (numpad 2))).state.first_quadrant ≤ 9)) :=
  ⟨by decide, by decide,
    (reachable_invariant (snapshots (fun _ => sampleEnv) 0 gesture52)
      (KeybdProc ⟨true, 5⟩ sampleEnv (keyEvent WM_KEYUP (numpad 2))) (by decide)).1⟩

/-- C17: without overflow, for a workspace of non-negative extent, the widths of
any two quadrants 1..9 differ by at most 1 and so do their heights; quadrants
of the same column have the same left and right, and quadrants of the same row
the same top and bottom. -/
theorem GetQuadrant_sizes (W : RECT) (q p : Int) (hq : 1 ≤ q ∧ q ≤ 9) (hp : 1 ≤ p ∧ p ≤ 9)
    (hw : 0 ≤ W.right - W.left) (hh : 0 ≤ W.bottom - W.top) (hno : NoOverflow W) :
    (((GetQuadrant W q).right - (GetQuadrant W q).left) -
        ((GetQuadrant W p).right - (GetQuadrant W p).left) ≤ 1 ∧
      ((GetQuadrant W p).right - (GetQuadrant W p).left) -
        ((GetQuadrant W q).right - (GetQuadrant W q).left) ≤ 1) ∧
    (((GetQuadrant W q).bottom - (GetQuadrant W q).top) -
        ((GetQuadrant W p).bottom - (GetQuadrant W p).top) ≤ 1 ∧
      ((GetQuadrant W p).bottom - (GetQuadrant W p).top) -
        ((GetQuadrant W q).bottom - (GetQuadrant W q).top) ≤ 1) ∧
    ((q - 1) % 3 = (p - 1) % 3 →
      (GetQuadrant W q).left = (GetQuadrant W p).left ∧
      (GetQuadrant W q).right = (GetQuadrant W p).right) ∧
    ((q - 1) / 3 = (p - 1) / 3 →
      (GetQuadrant W q).top = (GetQuadrant W p).top ∧
      (GetQuadrant W q).bottom = (GetQuadrant W p).bottom) := by
  obtain ⟨hq1, hq9⟩ := hq
  obtain ⟨hp1, hp9⟩ := hp
  rw [GetQuadrant_eq W q hq1 hq9 hno hw hh, GetQuadrant_eq W p hp1 hp9 hno hw hh]
  simp only
  have hc : (q - 1) % 3 = 0 ∨ (q - 1) % 3 = 1 ∨ (q - 1) % 3 = 2 := by omega
  have hr : 2 - (q - 1) / 3 = 0 ∨ 2 - (q - 1) / 3 = 1 ∨ 2 - (q - 1) / 3 = 2 := by omega
  have hc2 : (p - 1) % 3 = 0 ∨ (p - 1) % 3 = 1 ∨ (p - 1) % 3 = 2 := by omega
  have hr2 : 2 - (p - 1) / 3 = 0 ∨ 2 - (p - 1) / 3 = 1 ∨ 2 - (p - 1) / 3 = 2 := by omega
  refine ⟨?_, ?_, ?_, ?_⟩
  · rcases hc with h | h | h <;> rcases hc2 with k | k | k <;> rw [h, k] <;> omega
  · rcases hr with h | h | h <;> rcases hr2 with k | k | k <;> rw [h, k] <;> omega
  · intro h
    rw [h]
    exact ⟨rfl, rfl⟩
  · intro h
    rw [h]
    exact ⟨rfl, rfl⟩

/-- C17 at the work area (0,0,1000,700): quadrants 1 and 9 are 333 and 334 wide,
233 and 234 high; quadrants 1 and 7 share the left column. -/
theorem GetQuadrant_sizes_witness :
    NoOverflow ⟨0, 0, 1000, 700⟩ ∧
    GetQuadrant ⟨0, 0, 1000, 700⟩ 1 = ⟨0, 466, 333, 700⟩ ∧
    GetQuadrant ⟨0, 0, 1000, 700⟩ 9 = ⟨666, 0, 1000, 233⟩ ∧
    (GetQuadrant ⟨0, 0, 1000, 700⟩ 1).left = (GetQuadrant ⟨0, 0, 1000, 700⟩ 7).left ∧
    (GetQuadrant ⟨0, 0, 1000, 700⟩ 1).right = (GetQuadrant ⟨0, 0, 1000, 700⟩ 7).right :=
  ⟨by decide, by decide, by decide,
    (GetQuadrant_sizes ⟨0, 0, 1000, 700⟩ 1 7 (by decide) (by decide) (by decide) (by decide)
      (by decide)).2.2.1 (by decide)⟩

/-- C18, refuted: at width and height 1000 the right column ends at 1000 and
the bottom row ends at 1000; and for no rectangle at all does a quadrant of the
right column end 1 or 2 below `right`, or a quadrant of the bottom row 1 or 2
below `bottom`. -/
theorem no_gap_at_outer_edge :
    ((GetQuadrant ⟨0, 0, 1000, 1000⟩ 3).right = 1000 ∧
      (GetQuadrant ⟨0, 0, 1000, 1000⟩ 6).right = 1000 ∧
      (GetQuadrant ⟨0, 0, 1000, 1000⟩ 9).right = 1000 ∧
      (GetQuadrant ⟨0, 0, 1000, 1000⟩ 1).bottom = 1000 ∧
      (GetQuadrant ⟨0, 0, 1000, 1000⟩ 2).bottom = 1000 ∧
      (GetQuadrant ⟨0, 0, 1000, 1000⟩ 3).bottom = 1000) ∧
    (¬ ∃ W : RECT, ∃ q : Int, (q = 3 ∨ q = 6 ∨ q = 9) ∧
      ((GetQuadrant W q).right = W.right - 1 ∨ (GetQuadrant W q).right = W.right - 2)) ∧
    (¬ ∃ W : RECT, ∃ q : Int, (q = 1 ∨ q = 2 ∨ q = 3) ∧
      ((GetQuadrant W q).bottom = W.bottom - 1 ∨
        (GetQuadrant W q).bottom = W.bottom - 2)) := by
  refine ⟨by decide, ?_, ?_⟩
  · rintro ⟨W, q, hq, h⟩
    rw [GetQuadrant_right_column W q hq] at h
    have := last_line_no_gap W.left W.right
    tauto
  · rintro ⟨W, q, hq, h⟩
    rw [GetQuadrant_bottom_row W q hq] at h
    have := last_line_no_gap W.top W.bottom
    tauto

/-- C18 as amended: without overflow, whether or not the width and the height
are divisible by 3, the quadrants of the right column (3, 6, 9) end exactly at
the right edge of the workspace and the quadrants of the bottom row (1, 2, 3)
exactly at its bottom edge. -/
theorem outer_edge_exact (W : RECT) (q : Int) (hno : NoOverflow W) :
    ((q = 3 ∨ q = 6 ∨ q = 9) → (GetQuadrant W q).right = W.right) ∧
    ((q = 1 ∨ q = 2 ∨ q = 3) → (GetQuadrant W q).bottom = W.bottom) := by
  obtain ⟨⟨_, _, hr, hb⟩, hW, hH⟩ := hno
  constructor
  · intro hq
    rw [GetQuadrant_right_column W q hq]
    exact last_line_exact W.left W.right hr hW
  · intro hq
    rw [GetQuadrant_bottom_row W q hq]
    exact last_line_exact W.top W.bottom hb hH

/-- C18 as amended, at a workspace 1000 wide and 1000 high, whose extent is not
divisible by 3. -/
theorem outer_edge_exact_witness :
    NoOverflow ⟨10, 20, 1010, 1020⟩ ∧ (1000 : Int) % 3 ≠ 0 ∧
    (GetQuadrant ⟨10, 20, 1010, 1020⟩ 3).right = 1010 ∧
    (GetQuadrant ⟨10, 20, 1010, 1020⟩ 3).bottom = 1020 :=
  ⟨by decide, by decide,
    (outer_edge_exact ⟨10, 20, 1010, 1020⟩ 3 (by decide)).1 (by decide),
    (outer_edge_exact ⟨10, 20, 1010, 1020⟩ 3 (by decide)).2 (by decide)⟩

/-- C19: without overflow, for a workspace at least 3 wide and 3 high and
quadrants in 1..9, the bounding box of the two quadrants is the whole workspace
exactly when `ShouldBeMaximized` is true. -/
theorem maximize_iff_spans (W : RECT) (q1 q2 : Int) (hq1 : 1 ≤ q1 ∧ q1 ≤ 9)
    (hq2 : 1 ≤ q2 ∧ q2 ≤ 9) (hw : 3 ≤ W.right - W.left) (hh : 3 ≤ W.bottom - W.top)
    (hno : NoOverflow W) :
    unionRect (GetQuadrant W q1) (GetQuadrant W q2) = W ↔ ShouldBeMaximized q1 q2 = true := by
  obtain ⟨h11, h19⟩ := hq1
  obtain ⟨h21, h29⟩ := hq2
  rw [GetQuadrant_eq W q1 h11 h19 hno (by omega) (by omega),
    GetQuadrant_eq W q2 h21 h29 hno (by omega) (by omega), ShouldBeMaximized_true_iff]
  obtain ⟨l, t, r, b⟩ := W
  simp only [unionRect, RECT.mk.injEq] at hw hh ⊢
  have hx := thirds_span l (r - l) ((q1 - 1) % 3) ((q2 - 1) % 3) (by omega) (by omega) hw
  have hy := thirds_span t (b - t) (2 - (q1 - 1) / 3) (2 - (q2 - 1) / 3) (by omega) (by omega) hh
  rw [show l + (r - l) = r by omega] at hx
  rw [show t + (b - t) = b by omega] at hy
  have hxy : ∀ p1 p2 p3 p4 : Prop, (p1 ∧ p2 ∧ p3 ∧ p4) ↔ ((p1 ∧ p3) ∧ (p2 ∧ p4)) := by
    intro p1 p2 p3 p4
    tauto
  rw [hxy, hx, hy]
  omega

/-- C19 at the work area (0,0,1000,700): the pair (3, 7) spans it and the pair
(1, 3) does not. -/
theorem maximize_iff_spans_witness :
    NoOverflow ⟨0, 0, 1000, 700⟩ ∧
    unionRect (GetQuadrant ⟨0, 0, 1000, 700⟩ 3) (GetQuadrant ⟨0, 0, 1000, 700⟩ 7) =
      ⟨0, 0, 1000, 700⟩ ∧
    ¬ unionRect (GetQuadrant ⟨0, 0, 1000, 700⟩ 1) (GetQuadrant ⟨0, 0, 1000, 700⟩ 3) =
      ⟨0, 0, 1000, 700⟩ :=
  ⟨by decide,
    (maximize_iff_spans ⟨0, 0, 1000, 700⟩ 3 7 (by decide) (by decide) (by decide) (by decide)
      (by decide)).mpr (by decide),
    fun h => absurd
      ((maximize_iff_spans ⟨0, 0, 1000, 700⟩ 1 3 (by decide) (by decide) (by decide)
        (by decide) (by decide)).mp h) (by decide)⟩

/-- C20: an event of the left control key is forwarded to the next hook and
issues no window command and no placement, from every state; its key-down sets
`ctrl_down` and keeps `first_quadrant`, so it changes nothing when the key is
already held; and an event is consumed only if its key is numpad 1..9 and the
control key is held. -/
theorem modifier_never_swallowed (s : State) (w : Env) (e : Event) :
    (e.vkCode = VK_LCONTROL →
      (KeybdProc s w e).result = .forwarded ∧ (KeybdProc s w e).cmds = [] ∧
      (KeybdProc s w e).placement = none) ∧
    (e.vkCode = VK_LCONTROL → e.wParam = WM_KEYDOWN → 0 ≤ e.aCode →
      (KeybdProc s w e).state =
        { ctrl_down := true, first_quadrant := s.first_quadrant }) ∧
    (e.vkCode = VK_LCONTROL → e.wParam = WM_KEYDOWN → s.ctrl_down = true →
      (KeybdProc s w e).state = s) ∧
    ((KeybdProc s w e).result = .consumed →
      (VK_NUMPAD1 ≤ e.vkCode ∧ e.vkCode ≤ VK_NUMPAD9) ∧ s.ctrl_down = true) := by
  have hdu : WM_KEYDOWN ≠ WM_KEYUP := by decide
  refine ⟨?_, ?_, ?_, ?_⟩
  · intro hl
    by_cases hc : e.aCode < 0
    · rw [KeybdProc_neg_code s w e hc]
      exact ⟨rfl, rfl, rfl⟩
    · rw [KeybdProc_lcontrol s w e (Int.not_lt.mp hc) hl]
      exact ⟨rfl, rfl, rfl⟩
  · intro hl hd hc
    rw [KeybdProc_lcontrol s w e hc hl]
    simp [hd, hdu]
  · intro hl hd hctrl
    by_cases hc : e.aCode < 0
    · rw [KeybdProc_neg_code s w e hc]
    · rw [KeybdProc_lcontrol s w e (Int.not_lt.mp hc) hl]
      cases s
      simp only at hctrl
      simp [hd, hdu, hctrl]
  · intro hres
    by_cases hl : e.vkCode = VK_LCONTROL
    · by_cases hc : e.aCode < 0
      · rw [KeybdProc_neg_code s w e hc] at hres
        simp at hres
      · rw [KeybdProc_lcontrol s w e (Int.not_lt.mp hc) hl] at hres
        simp at hres
    · by_cases hr : VK_NUMPAD1 ≤ e.vkCode ∧ e.vkCode ≤ VK_NUMPAD9
      · refine ⟨hr, ?_⟩
        cases hctrl : s.ctrl_down
        · rw [KeybdProc_idle s w e hl hctrl] at hres
          simp at hres
        · rfl
      · rw [KeybdProc_not_numpad s w e hl hr] at hres
        simp at hres

/-- C20 at a control key-down with quadrant 4 pending, a control key-up, and a
consumed numpad 6 key-down. -/
theorem modifier_never_swallowed_witness :
    KeybdProc ⟨true, 4⟩ sampleEnv (keyEvent WM_KEYDOWN VK_LCONTROL) =
      { state := ⟨true, 4⟩, result := .forwarded, cmds := [], placement := none } ∧
    (KeybdProc ⟨true, 4⟩ sampleEnv (keyEvent WM_KEYUP VK_LCONTROL)).result = .forwarded ∧
    (KeybdProc ⟨false, -1⟩ sampleEnv (keyEvent WM_KEYDOWN VK_LCONTROL)).state = ⟨true, -1⟩ ∧
    (KeybdProc ⟨true, 4⟩ sampleEnv (keyEvent WM_KEYDOWN (numpad 6))).result = .consumed ∧
    ((VK_NUMPAD1 ≤ (keyEvent WM_KEYDOWN (numpad 6)).vkCode ∧
      (keyEvent WM_KEYDOWN (numpad 6)).vkCode ≤ VK_NUMPAD9) ∧ true = true) :=
  ⟨by decide,
    ((modifier_never_swallowed ⟨true, 4⟩ sampleEnv (keyEvent WM_KEYUP VK_LCONTROL)).1 rfl).1,
    (modifier_never_swallowed ⟨false, -1⟩ sampleEnv (keyEvent WM_KEYDOWN VK_LCONTROL)).2.1
      rfl rfl (by decide),
    by decide,
    (modifier_never_swallowed ⟨true, 4⟩ sampleEnv (keyEvent WM_KEYDOWN (numpad 6))).2.2.2
      (by decide)⟩

end WinpadLayout
